import Mathlib

/-!
Shallow embedding of the DFU host client (dfu.py).

The device side of every USB control transfer is an oracle (`Device σ`):
for each request kind it either answers (`some …`) or raises a USB
transport error (`none`, modelling `usb.core.USBError`).  Every engine
function is embedded as a trace-producing state transformer
`M σ α := σ → List Act × Res σ α`: the list of issued requests/actions
together with the outcome (normal value, early `return code`, a raised
exception, or fuel exhaustion standing for a non-terminating loop).
-/

namespace Dfu

/-- DFU states (dfu.py constants). -/
def DFU_STATE_APP_IDLE : Nat := 0x00
def DFU_STATE_APP_DETACH : Nat := 0x01
def DFU_STATE_DFU_IDLE : Nat := 0x02
def DFU_STATE_DFU_DNLOAD_SYNC : Nat := 0x03
def DFU_STATE_DFU_DNBUSY : Nat := 0x04
def DFU_STATE_DFU_DOWNLOAD_IDLE : Nat := 0x05
def DFU_STATE_DFU_MANIFEST_SYNC : Nat := 0x06
def DFU_STATE_DFU_MANIFEST : Nat := 0x07
def DFU_STATE_DFU_MANIFEST_WAIT_RST : Nat := 0x08
def DFU_STATE_DFU_UPLOAD_IDLE : Nat := 0x09
def DFU_STATE_DFU_ERROR : Nat := 0x0A

/-- DFU status codes (dfu.py constants). -/
def DFU_STATUS_OK : Nat := 0x00

/-- Command codes of the main dispatch (dfu.py constants). -/
def CMD_DETACH : Nat := 3
def CMD_UPLOAD : Nat := 4
def CMD_DOWNLOAD : Nat := 5
def CMD_DOWNLOAD_RANDOM_BIN : Nat := 6

/-- DFU protocol codes. -/
def DFU_PROTOCOL_DFU : Nat := 0x02

/-- Observable actions of the host: USB requests, interface claim/release,
and file-system effects.  A `ctrlDownload` payload of `none` is the
zero-length download request (`data=None` in the source). -/
inductive Act where
  | ctrlDownload (transaction : Nat) (payload : Option (List Nat))
  | ctrlUpload (transaction : Nat) (wLength : Nat)
  | ctrlGetStatus
  | ctrlClrStatus
  | ctrlAbort
  | ctrlDetach
  | claimIntf
  | releaseIntf
  | setAlt
  | fileOpenRead
  | fileOpenWrite
  | fileWrite (data : List Nat)
  | genRandomFile
deriving DecidableEq

/-- Parsed GETSTATUS response (dataclass `dfu_status` in the source). -/
structure dfu_status where
  bStatus : Nat
  bwPollTimeout : Nat
  bState : Nat
deriving DecidableEq

/-- The device oracle: for each control request it returns the new device
state and either a typed answer or `none`, which models the transfer
raising `usb.core.USBError`. -/
structure Device (σ : Type) where
  onDownload : σ → Nat → Option (List Nat) → σ × Option Unit
  onUpload : σ → Nat → Nat → σ × Option (List Nat)
  onGetStatus : σ → σ × Option dfu_status
  onClrStatus : σ → σ × Option Int
  onAbort : σ → σ × Option Int
  onDetach : σ → σ × Option Int
  onSetAlt : σ → σ × Option Unit

/-- Outcome of running an embedded function: normal value, early
`return code`, a propagating `usb.core.USBError` / `ValueError` /
`RuntimeError`, an exception no handler catches (`crash`), or fuel
exhaustion (`hang`, standing for a loop that does not terminate). -/
inductive Res (σ : Type) (α : Type) where
  | ok (s : σ) (a : α)
  | ret (s : σ) (code : Nat)
  | exnUsb (s : σ)
  | exnVal (s : σ)
  | exnRt (s : σ) (state status : Nat)
  | crash (s : σ)
  | hang (s : σ)
deriving DecidableEq

/-- Trace-producing state transformer over the device state. -/
def M (σ : Type) (α : Type) : Type := σ → List Act × Res σ α

def pureM (a : α) : M σ α := fun s => ([], .ok s a)

def bindM (m : M σ α) (f : α → M σ β) : M σ β := fun s =>
  match m s with
  | (tr, .ok s a) =>
    let r := f a s
    (tr ++ r.1, r.2)
  | (tr, .ret s c) => (tr, .ret s c)
  | (tr, .exnUsb s) => (tr, .exnUsb s)
  | (tr, .exnVal s) => (tr, .exnVal s)
  | (tr, .exnRt s a b) => (tr, .exnRt s a b)
  | (tr, .crash s) => (tr, .crash s)
  | (tr, .hang s) => (tr, .hang s)

instance : Monad (M σ) where
  pure := pureM
  bind := bindM

def emitM (a : Act) : M σ Unit := fun s => ([a], .ok s ())

/-- A `return code` statement inside a Python function body. -/
def earlyReturn (c : Nat) : M σ α := fun s => ([], .ret s c)

/-- `raise RuntimeError(...)` carrying the reported (state, status) pair. -/
def raiseRt (state status : Nat) : M σ α := fun s => ([], .exnRt s state status)

/-- `raise ValueError(...)`. -/
def raiseVal : M σ α := fun s => ([], .exnVal s)

/-- An exception that the handler of main does not catch (the NameError on
`bitWillDetach`). -/
def crashM : M σ α := fun s => ([], .crash s)

def hangM : M σ α := fun s => ([], .hang s)

/-- `dfu_get_state`: one GETSTATUS control transfer. -/
def dfu_get_state (d : Device σ) : M σ dfu_status := fun s =>
  match d.onGetStatus s with
  | (s, none) => ([.ctrlGetStatus], .exnUsb s)
  | (s, some st) => ([.ctrlGetStatus], .ok s st)

/-- `dfu_clear_status`: one CLRSTATUS control transfer. -/
def dfu_clear_status (d : Device σ) : M σ Int := fun s =>
  match d.onClrStatus s with
  | (s, none) => ([.ctrlClrStatus], .exnUsb s)
  | (s, some r) => ([.ctrlClrStatus], .ok s r)

/-- `dfu_abort_status`: one ABORT control transfer. -/
def dfu_abort_status (d : Device σ) : M σ Int := fun s =>
  match d.onAbort s with
  | (s, none) => ([.ctrlAbort], .exnUsb s)
  | (s, some r) => ([.ctrlAbort], .ok s r)

/-- `dfu_detch`: one DETACH control transfer. -/
def dfu_detch (d : Device σ) : M σ Int := fun s =>
  match d.onDetach s with
  | (s, none) => ([.ctrlDetach], .exnUsb s)
  | (s, some r) => ([.ctrlDetach], .ok s r)

/-- `dev.set_interface_altsetting`. -/
def set_interface_altsetting (d : Device σ) : M σ Unit := fun s =>
  match d.onSetAlt s with
  | (s, none) => ([.setAlt], .exnUsb s)
  | (s, some _) => ([.setAlt], .ok s ())

/-- The DOWNLOAD control transfer at the head of `dfu_download`. -/
def dfu_download_xfer (d : Device σ) (transaction : Nat) (data : Option (List Nat)) :
    M σ Unit := fun s =>
  match d.onDownload s transaction data with
  | (s, none) => ([.ctrlDownload transaction data], .exnUsb s)
  | (s, some _) => ([.ctrlDownload transaction data], .ok s ())

/-- The UPLOAD control transfer at the head of `dfu_upload`. -/
def dfu_upload_xfer (d : Device σ) (transaction xfersize : Nat) :
    M σ (List Nat) := fun s =>
  match d.onUpload s transaction xfersize with
  | (s, none) => ([.ctrlUpload transaction xfersize], .exnUsb s)
  | (s, some data) => ([.ctrlUpload transaction xfersize], .ok s data)

/-- The `while True` status poll loop inside `dfu_download`: break on
DNLOAD_IDLE or DFU_IDLE; on status not OK or state ERROR, clear status and
raise RuntimeError; otherwise sleep and poll again (fuel bounds the number
of polls). -/
def dfu_download_poll (d : Device σ) : Nat → M σ Unit
  | 0 => hangM
  | fuel + 1 => do
    let status ← dfu_get_state d
    if status.bState = DFU_STATE_DFU_DOWNLOAD_IDLE ∨ status.bState = DFU_STATE_DFU_IDLE then
      pureM ()
    else if status.bStatus ≠ DFU_STATUS_OK ∨ status.bState = DFU_STATE_DFU_ERROR then do
      let _ ← dfu_clear_status d
      raiseRt status.bState status.bStatus
    else
      dfu_download_poll d fuel

/-- `dfu_download`: one DOWNLOAD request followed by its status poll loop. -/
def dfu_download (d : Device σ) (pollFuel transaction : Nat) (data : Option (List Nat)) :
    M σ Unit := do
  dfu_download_xfer d transaction data
  dfu_download_poll d pollFuel

/-- The `while True` status poll loop inside `dfu_upload`: break on
UPLOAD_IDLE or DFU_IDLE. -/
def dfu_upload_poll (d : Device σ) : Nat → M σ Unit
  | 0 => hangM
  | fuel + 1 => do
    let status ← dfu_get_state d
    if status.bState = DFU_STATE_DFU_UPLOAD_IDLE ∨ status.bState = DFU_STATE_DFU_IDLE then
      pureM ()
    else if status.bStatus ≠ DFU_STATUS_OK ∨ status.bState = DFU_STATE_DFU_ERROR then do
      let _ ← dfu_clear_status d
      raiseRt status.bState status.bStatus
    else
      dfu_upload_poll d fuel

/-- `dfu_upload`: one UPLOAD request, the status poll loop, then the
received bytes. -/
def dfu_upload (d : Device σ) (pollFuel transaction xfersize : Nat) :
    M σ (List Nat) := do
  let data ← dfu_upload_xfer d transaction xfersize
  dfu_upload_poll d pollFuel
  pureM data

/-- The `while bytes_downloaded < len(data)` chunk loop of `_dfu_download`,
followed by the final zero-length request.  `fuel` bounds the number of
iterations. -/
def dnLoopGo (d : Device σ) (pollFuel : Nat) (data : List Nat) (xfersize : Nat) :
    Nat → Nat → Nat → M σ Unit
  | 0, _, _ => hangM
  | fuel + 1, transaction, bytes_downloaded =>
    if bytes_downloaded < data.length then do
      dfu_download d pollFuel transaction
        (some ((data.drop bytes_downloaded).take (min xfersize (data.length - bytes_downloaded))))
      dnLoopGo d pollFuel data xfersize fuel (transaction + 1)
        (bytes_downloaded + min xfersize (data.length - bytes_downloaded))
    else
      dfu_download d pollFuel transaction none

/-- `except usb.core.USBError: logger.warning(...)` — a propagating USB
error is swallowed and the function returns normally with `dflt`. -/
def catchUsb (m : M σ α) (dflt : α) : M σ α := fun s =>
  match m s with
  | (tr, .exnUsb s) => (tr, .ok s dflt)
  | r => r

/-- `_dfu_download`: the chunk loop wrapped in the USB-error handler. -/
def dfu_download_whole (d : Device σ) (pollFuel loopFuel : Nat)
    (data : List Nat) (xfersize : Nat) : M σ Unit :=
  catchUsb (dnLoopGo d pollFuel data xfersize loopFuel 0 0) ()

/-- The `while True` loop of `_dfu_upload` with its surrounding USB-error
handler: each iteration receives a chunk, appends it, increments the
transaction, and breaks when the chunk is shorter than `xfersize`; a USB
error makes the function return the bytes accumulated so far. -/
def upGo (d : Device σ) (pollFuel xfersize : Nat) :
    Nat → Nat → List Nat → M σ (List Nat)
  | 0, _, _ => hangM
  | fuel + 1, transaction, data => fun s =>
    match dfu_upload d pollFuel transaction xfersize s with
    | (tr, .ok s rdata) =>
      if rdata.length < xfersize then (tr, .ok s (data ++ rdata))
      else
        let r := upGo d pollFuel xfersize fuel (transaction + 1) (data ++ rdata) s
        (tr ++ r.1, r.2)
    | (tr, .exnUsb s) => (tr, .ok s data)
    | (tr, .ret s c) => (tr, .ret s c)
    | (tr, .exnVal s) => (tr, .exnVal s)
    | (tr, .exnRt s a b) => (tr, .exnRt s a b)
    | (tr, .crash s) => (tr, .crash s)
    | (tr, .hang s) => (tr, .hang s)

/-- `_dfu_upload`. -/
def dfu_upload_whole (d : Device σ) (pollFuel loopFuel xfersize : Nat) :
    M σ (List Nat) :=
  upGo d pollFuel xfersize loopFuel 0 []

/-- Collapse early `return code` into the return value of the function
(the boundary of a Python function returning an int). -/
def runRet (m : M σ Unit) : M σ Nat := fun s =>
  match m s with
  | (tr, .ok s _) => (tr, .ok s 0)
  | (tr, .ret s c) => (tr, .ok s c)
  | (tr, .exnUsb s) => (tr, .exnUsb s)
  | (tr, .exnVal s) => (tr, .exnVal s)
  | (tr, .exnRt s a b) => (tr, .exnRt s a b)
  | (tr, .crash s) => (tr, .crash s)
  | (tr, .hang s) => (tr, .hang s)

/-- Body of `download`: file checks, open for reading, the three pre-flight
status checks, then `_dfu_download`. -/
def downloadBody (d : Device σ) (pollFuel loopFuel : Nat)
    (fileExists fileReadable : Bool) (data : List Nat) (transferSize : Nat) :
    M σ Unit := do
  (if fileExists = false then earlyReturn 1 else pureM ())
  (if fileReadable = false then earlyReturn 1 else pureM ())
  emitM .fileOpenRead
  let status ← dfu_get_state d
  (if status.bState = DFU_STATE_APP_IDLE ∨ status.bState = DFU_STATE_APP_DETACH then
    earlyReturn 1
   else pureM ())
  let status2 ← dfu_get_state d
  (if status2.bStatus ≠ DFU_STATUS_OK ∨ status2.bState = DFU_STATE_DFU_ERROR then do
    let ret ← dfu_clear_status d
    if ret < 0 then earlyReturn 1 else pureM ()
   else pureM ())
  let status3 ← dfu_get_state d
  (if status3.bState = DFU_STATE_DFU_DOWNLOAD_IDLE ∨ status3.bState = DFU_STATE_DFU_UPLOAD_IDLE then do
    let ret ← dfu_abort_status d
    (if ret < 0 then earlyReturn 1 else pureM ())
    let status4 ← dfu_get_state d
    if status4.bState = DFU_STATE_DFU_DOWNLOAD_IDLE ∨ status4.bState = DFU_STATE_DFU_UPLOAD_IDLE then
      earlyReturn 1
    else pureM ()
   else pureM ())
  dfu_download_whole d pollFuel loopFuel data transferSize

/-- `download` (top-level operation, returns an exit code unless an
exception propagates). -/
def download (d : Device σ) (pollFuel loopFuel : Nat)
    (fileExists fileReadable : Bool) (data : List Nat) (transferSize : Nat) :
    M σ Nat :=
  runRet (downloadBody d pollFuel loopFuel fileExists fileReadable data transferSize)

/-- Body of `upload`: open the destination for writing (truncating it)
first, then the writability check, the same pre-flight status checks, then
`_dfu_upload` and the file write. -/
def uploadBody (d : Device σ) (pollFuel loopFuel : Nat)
    (fileWritable : Bool) (transferSize : Nat) : M σ Unit := do
  emitM .fileOpenWrite
  (if fileWritable = false then earlyReturn 1 else pureM ())
  let status ← dfu_get_state d
  (if status.bState = DFU_STATE_APP_IDLE ∨ status.bState = DFU_STATE_APP_DETACH then
    earlyReturn 1
   else pureM ())
  let status2 ← dfu_get_state d
  (if status2.bStatus ≠ DFU_STATUS_OK ∨ status2.bState = DFU_STATE_DFU_ERROR then do
    let ret ← dfu_clear_status d
    if ret < 0 then earlyReturn 1 else pureM ()
   else pureM ())
  let status3 ← dfu_get_state d
  (if status3.bState = DFU_STATE_DFU_DOWNLOAD_IDLE ∨ status3.bState = DFU_STATE_DFU_UPLOAD_IDLE then do
    let ret ← dfu_abort_status d
    (if ret < 0 then earlyReturn 1 else pureM ())
    let status4 ← dfu_get_state d
    if status4.bState = DFU_STATE_DFU_DOWNLOAD_IDLE ∨ status4.bState = DFU_STATE_DFU_UPLOAD_IDLE then
      earlyReturn 1
    else pureM ()
   else pureM ())
  let data ← dfu_upload_whole d pollFuel loopFuel transferSize
  if data.length > 0 then emitM (.fileWrite data) else pureM ()

/-- `upload` (top-level operation). -/
def upload (d : Device σ) (pollFuel loopFuel : Nat)
    (fileWritable : Bool) (transferSize : Nat) : M σ Nat :=
  runRet (uploadBody d pollFuel loopFuel fileWritable transferSize)

/-- The `try` body of `detch`. -/
def detchBody (d : Device σ) : M σ Unit := do
  let ret ← dfu_detch d
  if ret < 0 then earlyReturn 1 else pureM ()

/-- The `finally: return 0` of `detch`: it overrides every early return
and swallows every exception of the body. -/
def finallyRet0 (m : M σ Unit) : M σ Nat := fun s =>
  match m s with
  | (tr, .hang s) => (tr, .hang s)
  | (tr, .ok s _) => (tr, .ok s 0)
  | (tr, .ret s _) => (tr, .ok s 0)
  | (tr, .exnUsb s) => (tr, .ok s 0)
  | (tr, .exnVal s) => (tr, .ok s 0)
  | (tr, .exnRt s _ _) => (tr, .ok s 0)
  | (tr, .crash s) => (tr, .ok s 0)

/-- `detch` (top-level detach operation). -/
def detch (d : Device σ) : M σ Nat := finallyRet0 (detchBody d)

/-- Environment of one `main` run, as seen after a successful initial
`get_dfu_device`: command code, reported protocol mode, file-system
answers, image bytes, and the result of the re-discovery performed after a
run-time-mode detach. -/
structure MainCfg where
  command : Nat
  dfu_mode : Nat
  fileExists : Bool
  fileReadable : Bool
  fileWritable : Bool
  accessOkRandom : Bool
  dlData : List Nat
  transferSize : Nat
  final_detach : Bool
  redisc_raises : Bool
  redisc_found : Bool
  redisc_mode : Nat
  pollFuel : Nat
  loopFuel : Nat
deriving DecidableEq

/-- The CMD_DETACH branch of `main` (source lines 682-687). -/
def main_detach_section (d : Device σ) : M σ Unit := do
  emitM .claimIntf
  set_interface_altsetting d
  let error ← detch d
  emitM .releaseIntf
  earlyReturn error

/-- The really-in-run-time-mode branch of `main` (source lines 703-725):
detach, release, re-discover; a missing or still-run-time device after
re-discovery is a failure return. -/
def main_runtime_app (d : Device σ) (cfg : MainCfg) : M σ Unit := do
  let error ← detch d
  (if error ≠ 0 then earlyReturn 1 else pureM ())
  emitM .releaseIntf
  (if cfg.redisc_raises = true then raiseVal else pureM ())
  (if cfg.redisc_found = false then earlyReturn 1 else pureM ())
  (if cfg.redisc_mode ≠ DFU_PROTOCOL_DFU then earlyReturn 1 else pureM ())

/-- The run-time-mode switch of `main` (source lines 689-725): claim,
status check, optional clear-status, and — when the device really is in
run-time mode — detach, release and re-discovery. -/
def main_runtime_section (d : Device σ) (cfg : MainCfg) : M σ Unit := do
  emitM .claimIntf
  set_interface_altsetting d
  let status ← dfu_get_state d
  (if status.bStatus ≠ DFU_STATUS_OK ∨ status.bState = DFU_STATE_DFU_ERROR then do
    let r ← dfu_clear_status d
    if r < 0 then do
      emitM .releaseIntf
      earlyReturn 1
    else pureM ()
   else pureM ())
  (if status.bState = DFU_STATE_APP_IDLE ∨ status.bState = DFU_STATE_APP_DETACH then
    main_runtime_app d cfg
   else pureM ())

/-- The operation dispatch of `main` (source lines 731-765): download
(with the random-file generation and its writability re-check) or upload. -/
def main_op_dispatch (d : Device σ) (cfg : MainCfg) : M σ Nat :=
  if cfg.command = CMD_DOWNLOAD ∨ cfg.command = CMD_DOWNLOAD_RANDOM_BIN then do
    (if cfg.command = CMD_DOWNLOAD_RANDOM_BIN then do
      emitM .genRandomFile
      if cfg.accessOkRandom = false then earlyReturn 1 else pureM ()
     else pureM ())
    download d cfg.pollFuel cfg.loopFuel cfg.fileExists cfg.fileReadable cfg.dlData cfg.transferSize
  else if cfg.command = CMD_UPLOAD then
    upload d cfg.pollFuel cfg.loopFuel cfg.fileWritable cfg.transferSize
  else pureM 0

/-- The optional final detach of `main` (source lines 767-778): after the
detach it reads the undefined name `bitWillDetach`, which raises a
NameError that no handler catches. -/
def main_final_section (d : Device σ) (cfg : MainCfg) (error : Nat) : M σ Unit :=
  if cfg.final_detach = true ∧ error = 0 then do
    let _ ← detch d
    crashM
  else pureM ()

/-- The `try` body of `main` after `get_dfu_device` succeeded (source
lines 682-781): detach command, run-time-mode switch, interface claim,
operation dispatch, optional final detach, final release. -/
def mainBody (d : Device σ) (cfg : MainCfg) : M σ Nat := do
  (if cfg.command = CMD_DETACH then main_detach_section d else pureM ())
  (if cfg.dfu_mode ≠ DFU_PROTOCOL_DFU then main_runtime_section d cfg else pureM ())
  emitM .claimIntf
  set_interface_altsetting d
  let error ← main_op_dispatch d cfg
  main_final_section d cfg error
  emitM .releaseIntf
  pureM error

/-- Collapse the early returns of `main`. -/
def runRetNat (m : M σ Nat) : M σ Nat := fun s =>
  match m s with
  | (tr, .ret s c) => (tr, .ok s c)
  | r => r

/-- `main` from the claim onward: the body under the
`except (RuntimeError, ValueError, ..., USBError)` handler, which releases
the interface and returns 1. -/
def mainRun (d : Device σ) (cfg : MainCfg) : M σ Nat := fun s =>
  match runRetNat (mainBody d cfg) s with
  | (tr, .exnUsb s) => (tr ++ [.releaseIntf], .ok s 1)
  | (tr, .exnVal s) => (tr ++ [.releaseIntf], .ok s 1)
  | (tr, .exnRt s _ _) => (tr ++ [.releaseIntf], .ok s 1)
  | r => r

/-- Whether the interface is claimed after performing the trace. -/
def claimStep (b : Bool) (a : Act) : Bool :=
  match a with
  | .claimIntf => true
  | .releaseIntf => false
  | _ => b

def claimedAt (tr : List Act) : Bool := tr.foldl claimStep false

/-- A trace whose last action is the interface release. -/
def endsRel (tr : List Act) : Prop :=
  ∃ t0, tr = t0 ++ [Act.releaseIntf]

/-- Destination-file contents after performing the trace, starting from
`init`: opening for writing truncates, a write appends. -/
def fileStep (f : List Nat) (a : Act) : List Nat :=
  match a with
  | .fileOpenWrite => []
  | .fileWrite data => f ++ data
  | _ => f

def fileAfter (init : List Nat) (tr : List Act) : List Nat :=
  tr.foldl fileStep init

/-- Projection of a trace to its DOWNLOAD requests. -/
def downloadsOf (tr : List Act) : List (Nat × Option (List Nat)) :=
  tr.filterMap fun a =>
    match a with
    | .ctrlDownload t p => some (t, p)
    | _ => none

/-- Projection of a trace to its UPLOAD requests. -/
def uploadsOf (tr : List Act) : List (Nat × Nat) :=
  tr.filterMap fun a =>
    match a with
    | .ctrlUpload t n => some (t, n)
    | _ => none

/-- A fully cooperating device: every transfer is accepted and every
status query reports (OK, DFU_IDLE), so each poll loop breaks at once. -/
def goodDev : Device Unit where
  onDownload := fun s _ _ => (s, some ())
  onUpload := fun s _ _ => (s, some [])
  onGetStatus := fun s => (s, some ⟨DFU_STATUS_OK, 0, DFU_STATE_DFU_IDLE⟩)
  onClrStatus := fun s => (s, some 0)
  onAbort := fun s => (s, some 0)
  onDetach := fun s => (s, some 0)
  onSetAlt := fun s => (s, some ())

/-- A cooperating device whose UPLOAD responses are `f transaction`. -/
def upDev (f : Nat → List Nat) : Device Unit :=
  { goodDev with onUpload := fun s t _ => (s, some (f t)) }

/-- DFU functional descriptor (dataclass `DfuDescriptor`). -/
structure DfuDescriptor where
  bmAttributes : Nat
  wDetachTimeOut : Nat
  wTransferSize : Nat
  bcdDFUVersion : Nat
deriving DecidableEq

def DFU_DESCRIPTOR_LEN : Nat := 9
def DFU_DESC_FUNCTIONAL : Nat := 0x21

/-- The descriptor built by `get_dfu_descriptor` from a matching
`extra_descriptors` byte sequence. -/
def dfu_desc_of (b : List Nat) : DfuDescriptor where
  bmAttributes := b.getD 2 0
  wDetachTimeOut := (b.getD 4 0) <<< 8 ||| (b.getD 3 0)
  wTransferSize := (b.getD 6 0) <<< 8 ||| (b.getD 5 0)
  bcdDFUVersion := (b.getD 8 0) <<< 8 ||| (b.getD 7 0)

/-- The match condition of `get_dfu_descriptor`. -/
def isDfuFunctional (b : List Nat) : Bool :=
  b.length = DFU_DESCRIPTOR_LEN && b.getD 1 0 = DFU_DESC_FUNCTIONAL

/-- Inner interface loop of `get_dfu_descriptor`. -/
def get_dfu_descriptor_intfs : List (List Nat) → Option DfuDescriptor
  | [] => none
  | b :: rest =>
    if isDfuFunctional b then some (dfu_desc_of b)
    else get_dfu_descriptor_intfs rest

/-- `get_dfu_descriptor`: a device is its configurations, a configuration
its interfaces, an interface its `extra_descriptors` bytes; the first
matching interface wins, otherwise the result is absent. -/
def get_dfu_descriptor : List (List (List Nat)) → Option DfuDescriptor
  | [] => none
  | cfg :: rest =>
    match get_dfu_descriptor_intfs cfg with
    | some desc => some desc
    | none => get_dfu_descriptor rest

/-- USB interface view used by the device filter. -/
structure UsbIntf where
  bInterfaceClass : Nat
  bInterfaceSubClass : Nat
  bInterfaceProtocol : Nat
deriving DecidableEq

/-- USB device view used by the device filter. -/
structure UsbDev where
  idVendor : Nat
  idProduct : Nat
  cfgs : List (List UsbIntf)
deriving DecidableEq

/-- The configuration/interface scan inside `FilterDFU.__call__`. -/
def hasDfuInterface (device : UsbDev) : Bool :=
  device.cfgs.any fun cfg =>
    cfg.any fun intf =>
      intf.bInterfaceClass = 0xFE && intf.bInterfaceSubClass = 1

/-- `FilterDFU.__call__`. -/
def FilterDFU (vid pid : Option Nat) (device : UsbDev) : Bool :=
  if vid = none ∨ vid = some device.idVendor then
    if pid = none ∨ pid = some device.idProduct then
      hasDfuInterface device
    else false
  else false

/-- `_get_dfu_devices`: the attached devices that pass the filter, in
enumeration order. -/
def get_dfu_devices (attached : List UsbDev) (vid pid : Option Nat) : List UsbDev :=
  attached.filter (FilterDFU vid pid)

/-- The device-selection core of `get_dfu_device`: none found or more than
one found leaves `dev = None` (the caller then fails); exactly one match
is chosen. -/
def get_dfu_device_select (attached : List UsbDev) (vid pid : Option Nat) :
    Option UsbDev :=
  let devices := get_dfu_devices attached vid pid
  if devices.isEmpty then none
  else if devices.length > 1 then none
  else devices.head?

/-- The chunk the download loop sends at transaction `i` for image `data`
and chunk size `C`. -/
def slice (data : List Nat) (C i : Nat) : List Nat :=
  (data.drop (i * C)).take C

/-- The download-sequence property of one `_dfu_download` run against a
cooperating device: it completes, its DOWNLOAD requests are the
consecutive slices of the image at transactions `0, 1, …, ceil(N/C) - 1`
followed by one zero-length request at transaction `ceil(N/C)`, the slices
reassemble the image, and every slice has size `C` except the last, which
is positive and at most `C`. -/
def DownloadClaim (data : List Nat) (C : Nat) : Prop :=
  ∃ tr : List Act,
    dfu_download_whole goodDev 1 (data.length + 1) data C () = (tr, Res.ok () ()) ∧
    downloadsOf tr =
      (List.range ((data.length + C - 1) / C)).map (fun i => (i, some (slice data C i)))
        ++ [((data.length + C - 1) / C, none)] ∧
    ((List.range ((data.length + C - 1) / C)).map (slice data C)).flatten = data ∧
    (∀ i, i + 1 < (data.length + C - 1) / C → (slice data C i).length = C) ∧
    (∀ i, i < (data.length + C - 1) / C →
      0 < (slice data C i).length ∧ (slice data C i).length ≤ C)

/-- The concrete scenario of the claim: a 10000-byte image with chunk size
4096 yields payload sizes 4096, 4096, 1808 at transactions 0, 1, 2 and a
zero-length request at transaction 3. -/
def ScenarioC1 : Prop :=
  (downloadsOf (dfu_download_whole goodDev 1 10001 (List.replicate 10000 0) 4096 ()).1).map
      (fun p => (p.1, Option.map List.length p.2)) =
    [(0, some 4096), (1, some 4096), (2, some 1808), (3, none)]

/-- The upload-sequence property of one `_dfu_upload` run against a device
answering `f t` to the UPLOAD request of transaction `t`, where `k` is the
first transaction whose response is shorter than the requested transfer
size: the loop completes, issues UPLOAD requests at transactions
`0, 1, …, k` exactly, and returns the concatenation of all responses in
transaction order. -/
def UploadClaim (f : Nat → List Nat) (xfersize k : Nat) : Prop :=
  ∃ tr : List Act,
    dfu_upload_whole (upDev f) 1 (k + 1) xfersize () =
      (tr, Res.ok () (((List.range (k + 1)).map f).flatten)) ∧
    uploadsOf tr = (List.range (k + 1)).map (fun i => (i, xfersize))

/-- A device that raises a USB transport error on every DOWNLOAD transfer
but otherwise cooperates. -/
def errDev : Device Unit :=
  { goodDev with onDownload := fun s _ _ => (s, none) }

/-- A device that raises a USB transport error on every UPLOAD transfer
but otherwise cooperates. -/
def errUpDev : Device Unit :=
  { goodDev with onUpload := fun s _ _ => (s, none) }

/-- A device whose every status query reports status `0x01` (not OK)
while in state DFU_IDLE — a break state of the poll loops. -/
def oddDev : Device Unit :=
  { goodDev with onGetStatus := fun s => (s, some ⟨0x01, 0, DFU_STATE_DFU_IDLE⟩) }

/-- A device whose every status query reports state APP_IDLE (run-time
mode). -/
def appDev : Device Unit :=
  { goodDev with onGetStatus := fun s => (s, some ⟨DFU_STATUS_OK, 0, DFU_STATE_APP_IDLE⟩) }

/-- A device whose every status query reports status `0x01` in state
DNBUSY (not a break state), so the poll loops take their error branch. -/
def errStDev : Device Unit :=
  { goodDev with onGetStatus := fun s => (s, some ⟨0x01, 0, DFU_STATE_DFU_DNBUSY⟩) }

/-- Environment of the run refuting the release-on-every-exit claim: a
random-bin download whose generated file fails the writability re-check
after the interface is claimed. -/
def cexCfg : MainCfg where
  command := CMD_DOWNLOAD_RANDOM_BIN
  dfu_mode := DFU_PROTOCOL_DFU
  fileExists := true
  fileReadable := true
  fileWritable := true
  accessOkRandom := false
  dlData := [1, 2]
  transferSize := 2
  final_detach := false
  redisc_raises := false
  redisc_found := true
  redisc_mode := DFU_PROTOCOL_DFU
  pollFuel := 1
  loopFuel := 5

/-- A benign download environment (used to witness the amended claim). -/
def okCfg : MainCfg :=
  { cexCfg with command := CMD_DOWNLOAD, accessOkRandom := true }

theorem bind_ok {σ α β : Type} {m : M σ α} {f : α → M σ β} {s s1 : σ}
    {tr : List Act} {a : α} (h : m s = (tr, Res.ok s1 a)) :
    (m >>= f) s = (tr ++ (f a s1).1, (f a s1).2) := by
  show bindM m f s = _
  unfold bindM
  rw [h]

theorem bind_ret {σ α β : Type} {m : M σ α} {f : α → M σ β} {s s1 : σ}
    {tr : List Act} {c : Nat} (h : m s = (tr, Res.ret s1 c)) :
    (m >>= f) s = (tr, Res.ret s1 c) := by
  show bindM m f s = _
  unfold bindM
  rw [h]

theorem bind_exnUsb {σ α β : Type} {m : M σ α} {f : α → M σ β} {s s1 : σ}
    {tr : List Act} (h : m s = (tr, Res.exnUsb s1)) :
    (m >>= f) s = (tr, Res.exnUsb s1) := by
  show bindM m f s = _
  unfold bindM
  rw [h]

theorem bind_exnVal {σ α β : Type} {m : M σ α} {f : α → M σ β} {s s1 : σ}
    {tr : List Act} (h : m s = (tr, Res.exnVal s1)) :
    (m >>= f) s = (tr, Res.exnVal s1) := by
  show bindM m f s = _
  unfold bindM
  rw [h]

theorem bind_exnRt {σ α β : Type} {m : M σ α} {f : α → M σ β} {s s1 : σ}
    {tr : List Act} {x y : Nat} (h : m s = (tr, Res.exnRt s1 x y)) :
    (m >>= f) s = (tr, Res.exnRt s1 x y) := by
  show bindM m f s = _
  unfold bindM
  rw [h]

theorem bind_crash {σ α β : Type} {m : M σ α} {f : α → M σ β} {s s1 : σ}
    {tr : List Act} (h : m s = (tr, Res.crash s1)) :
    (m >>= f) s = (tr, Res.crash s1) := by
  show bindM m f s = _
  unfold bindM
  rw [h]

theorem bind_hang {σ α β : Type} {m : M σ α} {f : α → M σ β} {s s1 : σ}
    {tr : List Act} (h : m s = (tr, Res.hang s1)) :
    (m >>= f) s = (tr, Res.hang s1) := by
  show bindM m f s = _
  unfold bindM
  rw [h]

theorem pureM_app {σ α : Type} (a : α) (s : σ) :
    (pureM a : M σ α) s = ([], Res.ok s a) := rfl

theorem emitM_app {σ : Type} (a : Act) (s : σ) :
    (emitM a : M σ Unit) s = ([a], Res.ok s ()) := rfl

theorem earlyReturn_app {σ α : Type} (c : Nat) (s : σ) :
    (earlyReturn c : M σ α) s = ([], Res.ret s c) := rfl

theorem dfu_get_state_some {σ : Type} {d : Device σ} {s s1 : σ} {st : dfu_status}
    (h : d.onGetStatus s = (s1, some st)) :
    dfu_get_state d s = ([Act.ctrlGetStatus], Res.ok s1 st) := by
  unfold dfu_get_state
  rw [h]

theorem dfu_get_state_none {σ : Type} {d : Device σ} {s s1 : σ}
    (h : d.onGetStatus s = (s1, none)) :
    dfu_get_state d s = ([Act.ctrlGetStatus], Res.exnUsb s1) := by
  unfold dfu_get_state
  rw [h]

theorem dfu_clear_status_some {σ : Type} {d : Device σ} {s s1 : σ} {r : Int}
    (h : d.onClrStatus s = (s1, some r)) :
    dfu_clear_status d s = ([Act.ctrlClrStatus], Res.ok s1 r) := by
  unfold dfu_clear_status
  rw [h]

theorem dfu_clear_status_none {σ : Type} {d : Device σ} {s s1 : σ}
    (h : d.onClrStatus s = (s1, none)) :
    dfu_clear_status d s = ([Act.ctrlClrStatus], Res.exnUsb s1) := by
  unfold dfu_clear_status
  rw [h]

theorem runRet_fst {σ : Type} (m : M σ Unit) (s : σ) :
    (runRet m s).1 = (m s).1 := by
  unfold runRet
  rcases h : m s with ⟨tr, r⟩
  cases r <;> rfl

/-- Claim C9: the detach operation always returns exit code 0, whatever the
device does (the `finally: return 0` overrides the early failure return
and swallows every exception raised by the DETACH transfer). -/
theorem claim_C9 :
    ∀ (σ : Type) (d : Device σ) (s : σ),
      detch d s = ([Act.ctrlDetach], Res.ok (d.onDetach s).1 0) := by
  intro σ d s
  unfold detch finallyRet0 detchBody
  rcases h : d.onDetach s with ⟨s1, _ | r⟩
  · have hd : dfu_detch d s = ([Act.ctrlDetach], Res.exnUsb s1) := by
      unfold dfu_detch
      rw [h]
    rw [bind_exnUsb hd]
  · have hd : dfu_detch d s = ([Act.ctrlDetach], Res.ok s1 r) := by
      unfold dfu_detch
      rw [h]
    rw [bind_ok hd]
    rcases lt_or_ge r 0 with hr | hr
    · rw [if_pos hr]
      rfl
    · rw [if_neg (not_lt.mpr hr)]
      rfl

/-- Claim C8: for both download and upload, when the initial status query
reports state APP_IDLE or APP_DETACH the operation returns 1 immediately:
the whole trace is the file open followed by that one GETSTATUS — in
particular no DOWNLOAD or UPLOAD chunk request is ever issued. -/
theorem claim_C8 :
    ∀ (σ : Type) (d : Device σ) (pf lf : Nat) (data : List Nat) (C : Nat)
      (s s1 : σ) (st : dfu_status),
      d.onGetStatus s = (s1, some st) →
      (st.bState = DFU_STATE_APP_IDLE ∨ st.bState = DFU_STATE_APP_DETACH) →
      download d pf lf true true data C s =
        ([Act.fileOpenRead, Act.ctrlGetStatus], Res.ok s1 1) ∧
      upload d pf lf true C s =
        ([Act.fileOpenWrite, Act.ctrlGetStatus], Res.ok s1 1) := by
  intro σ d pf lf data C s s1 st h hst
  have hgs : dfu_get_state d s = ([Act.ctrlGetStatus], Res.ok s1 st) :=
    dfu_get_state_some h
  have e1 : (if (true : Bool) = false then (earlyReturn 1 : M σ Unit) else pureM ()) s
      = ([], Res.ok s ()) := by
    rw [if_neg (by decide : ¬((true : Bool) = false))]
    rfl
  have happ : (if st.bState = DFU_STATE_APP_IDLE ∨ st.bState = DFU_STATE_APP_DETACH then
      (earlyReturn 1 : M σ Unit) else pureM ()) = earlyReturn 1 := if_pos hst
  have hret : (earlyReturn 1 : M σ Unit) s1 = ([], Res.ret s1 1) := rfl
  constructor
  · have hb : downloadBody d pf lf true true data C s =
        ([Act.fileOpenRead, Act.ctrlGetStatus], Res.ret s1 1) := by
      unfold downloadBody
      simp only [bind_ok e1, bind_ok (emitM_app Act.fileOpenRead s), bind_ok hgs,
        happ, bind_ret hret, List.nil_append, List.cons_append, List.append_nil]
    unfold download runRet
    rw [hb]
  · have hb : uploadBody d pf lf true C s =
        ([Act.fileOpenWrite, Act.ctrlGetStatus], Res.ret s1 1) := by
      unfold uploadBody
      simp only [bind_ok (emitM_app Act.fileOpenWrite s), bind_ok e1, bind_ok hgs,
        happ, bind_ret hret, List.nil_append, List.cons_append, List.append_nil]
    unfold upload runRet
    rw [hb]

theorem claim_C8_witness :
    appDev.onGetStatus () = ((), some ⟨0, 0, 0⟩) ∧
    download appDev 1 5 true true [1, 2] 2 () =
      ([Act.fileOpenRead, Act.ctrlGetStatus], Res.ok () 1) ∧
    upload appDev 1 5 true 2 () =
      ([Act.fileOpenWrite, Act.ctrlGetStatus], Res.ok () 1) :=
  ⟨rfl,
    claim_C8 Unit appDev 1 5 [1, 2] 2 () () ⟨0, 0, 0⟩ rfl (by decide)⟩

/-- Claim C10: `upload` opens (and thereby truncates) the destination file as
its very first action, before any device request and before the
writability precondition check; when the device is still in run-time mode
it returns 1 with the file already truncated to empty. -/
theorem claim_C10 :
    (∀ (σ : Type) (d : Device σ) (pf lf : Nat) (w : Bool) (C : Nat) (s : σ),
      (upload d pf lf w C s).1.head? = some Act.fileOpenWrite) ∧
    (∀ (σ : Type) (d : Device σ) (pf lf C : Nat) (s s1 : σ) (st : dfu_status)
      (init : List Nat),
      d.onGetStatus s = (s1, some st) →
      (st.bState = DFU_STATE_APP_IDLE ∨ st.bState = DFU_STATE_APP_DETACH) →
      upload d pf lf true C s =
        ([Act.fileOpenWrite, Act.ctrlGetStatus], Res.ok s1 1) ∧
      fileAfter init (upload d pf lf true C s).1 = []) := by
  constructor
  · intro σ d pf lf w C s
    have hb : ((emitM Act.fileOpenWrite >>= fun _ =>
        (if w = false then earlyReturn 1 else pureM ()) >>= fun _ =>
        dfu_get_state d >>= fun status =>
        (if status.bState = DFU_STATE_APP_IDLE ∨ status.bState = DFU_STATE_APP_DETACH then
          earlyReturn 1
         else pureM ()) >>= fun _ =>
        dfu_get_state d >>= fun status2 =>
        (if status2.bStatus ≠ DFU_STATUS_OK ∨ status2.bState = DFU_STATE_DFU_ERROR then
          dfu_clear_status d >>= fun ret =>
            if ret < 0 then earlyReturn 1 else pureM ()
         else pureM ()) >>= fun _ =>
        dfu_get_state d >>= fun status3 =>
        (if status3.bState = DFU_STATE_DFU_DOWNLOAD_IDLE ∨ status3.bState = DFU_STATE_DFU_UPLOAD_IDLE then
          dfu_abort_status d >>= fun ret =>
            (if ret < 0 then earlyReturn 1 else pureM ()) >>= fun _ =>
            dfu_get_state d >>= fun status4 =>
            if status4.bState = DFU_STATE_DFU_DOWNLOAD_IDLE ∨ status4.bState = DFU_STATE_DFU_UPLOAD_IDLE then
              earlyReturn 1
            else pureM ()
         else pureM ()) >>= fun _ =>
        dfu_upload_whole d pf lf C >>= fun data =>
        if data.length > 0 then emitM (Act.fileWrite data) else pureM ()) s).1.head?
        = some Act.fileOpenWrite := by
      rw [bind_ok (emitM_app Act.fileOpenWrite s)]
      rfl
    unfold upload
    rw [runRet_fst]
    unfold uploadBody
    exact hb
  · intro σ d pf lf C s s1 st init h hst
    have hgs : dfu_get_state d s = ([Act.ctrlGetStatus], Res.ok s1 st) :=
      dfu_get_state_some h
    have e1 : (if (true : Bool) = false then (earlyReturn 1 : M σ Unit) else pureM ()) s
        = ([], Res.ok s ()) := by
      rw [if_neg (by decide : ¬((true : Bool) = false))]
      rfl
    have happ : (if st.bState = DFU_STATE_APP_IDLE ∨ st.bState = DFU_STATE_APP_DETACH then
        (earlyReturn 1 : M σ Unit) else pureM ()) = earlyReturn 1 := if_pos hst
    have hret : (earlyReturn 1 : M σ Unit) s1 = ([], Res.ret s1 1) := rfl
    have hb : uploadBody d pf lf true C s =
        ([Act.fileOpenWrite, Act.ctrlGetStatus], Res.ret s1 1) := by
      unfold uploadBody
      simp only [bind_ok (emitM_app Act.fileOpenWrite s), bind_ok e1, bind_ok hgs,
        happ, bind_ret hret, List.nil_append, List.cons_append, List.append_nil]
    have hu : upload d pf lf true C s =
        ([Act.fileOpenWrite, Act.ctrlGetStatus], Res.ok s1 1) := by
      unfold upload runRet
      rw [hb]
    refine ⟨hu, ?_⟩
    rw [hu]
    rfl

theorem claim_C10_witness :
    (upload appDev 1 5 true 2 ()).1.head? = some Act.fileOpenWrite ∧
    upload appDev 1 5 true 2 () =
      ([Act.fileOpenWrite, Act.ctrlGetStatus], Res.ok () 1) ∧
    fileAfter [7, 7, 7] (upload appDev 1 5 true 2 ()).1 = [] :=
  ⟨claim_C10.1 Unit appDev 1 5 true 2 (),
    (claim_C10.2 Unit appDev 1 5 2 () () ⟨0, 0, 0⟩ [7, 7, 7] rfl (by decide)).1,
    (claim_C10.2 Unit appDev 1 5 2 () () ⟨0, 0, 0⟩ [7, 7, 7] rfl (by decide)).2⟩

/-- Claim C3 is refuted: against a device that raises a USB transport error on
the very first DOWNLOAD data transfer, `download` terminates with return
code 0 — the error is caught and swallowed inside `_dfu_download`, so no
nonzero result reaches the caller, and the whole `main` run exits with
code 0 as well. -/
theorem claim_C3_counterexample :
    download errDev 1 6 true true [1, 2, 3] 2 () =
      ([Act.fileOpenRead, Act.ctrlGetStatus, Act.ctrlGetStatus, Act.ctrlGetStatus,
        Act.ctrlDownload 0 (some [1, 2])], Res.ok () 0) ∧
    mainRun errDev { okCfg with dlData := [1, 2, 3] } () =
      ([Act.claimIntf, Act.setAlt, Act.fileOpenRead, Act.ctrlGetStatus,
        Act.ctrlGetStatus, Act.ctrlGetStatus, Act.ctrlDownload 0 (some [1, 2]),
        Act.releaseIntf], Res.ok () 0) := by
  constructor
  · decide
  · decide

/-- Claim C3 amended: a USB transport error inside the download or upload chunk
loop terminates the loop at once — the trace is unchanged, so the failed
transfer is never retried and no further request is issued — but the error
is swallowed by the USB-error handler of the loop, so `_dfu_download` returns
normally (and `_dfu_upload` returns the bytes accumulated so far) and the
enclosing operation reports success (0) instead of a failure. -/
theorem claim_C3_amended :
    (∀ (σ : Type) (d : Device σ) (pf lf : Nat) (data : List Nat) (C : Nat)
      (s s1 : σ) (tr : List Act),
      dnLoopGo d pf data C lf 0 0 s = (tr, Res.exnUsb s1) →
      dfu_download_whole d pf lf data C s = (tr, Res.ok s1 ())) ∧
    (∀ (σ : Type) (d : Device σ) (pf C fuel t : Nat) (acc : List Nat)
      (s s1 : σ) (tr : List Act),
      dfu_upload d pf t C s = (tr, Res.exnUsb s1) →
      upGo d pf C (fuel + 1) t acc s = (tr, Res.ok s1 acc)) := by
  constructor
  · intro σ d pf lf data C s s1 tr h
    unfold dfu_download_whole catchUsb
    rw [h]
  · intro σ d pf C fuel t acc s s1 tr h
    show (match dfu_upload d pf t C s with
      | (tr, .ok s rdata) =>
        if rdata.length < C then (tr, .ok s (acc ++ rdata))
        else
          let r := upGo d pf C fuel (t + 1) (acc ++ rdata) s
          (tr ++ r.1, r.2)
      | (tr, .exnUsb s) => (tr, .ok s acc)
      | (tr, .ret s c) => (tr, .ret s c)
      | (tr, .exnVal s) => (tr, .exnVal s)
      | (tr, .exnRt s a b) => (tr, .exnRt s a b)
      | (tr, .crash s) => (tr, .crash s)
      | (tr, .hang s) => (tr, .hang s)) = (tr, Res.ok s1 acc)
    rw [h]

theorem claim_C3_amended_witness :
    dnLoopGo errDev 1 [1, 2, 3] 2 6 0 0 () =
      ([Act.ctrlDownload 0 (some [1, 2])], Res.exnUsb ()) ∧
    dfu_download_whole errDev 1 6 [1, 2, 3] 2 () =
      ([Act.ctrlDownload 0 (some [1, 2])], Res.ok () ()) ∧
    dfu_upload errUpDev 1 0 2 () = ([Act.ctrlUpload 0 2], Res.exnUsb ()) ∧
    upGo errUpDev 1 2 4 0 [9] () = ([Act.ctrlUpload 0 2], Res.ok () [9]) :=
  ⟨by decide,
    claim_C3_amended.1 Unit errDev 1 6 [1, 2, 3] 2 () ()
      [Act.ctrlDownload 0 (some [1, 2])] (by decide),
    by decide,
    claim_C3_amended.2 Unit errUpDev 1 2 3 0 [9] () ()
      [Act.ctrlUpload 0 2] (by decide)⟩

/-- Claim C4 is refuted: the break-state check has priority over the error
check.  Against a device whose every status query reports status 0x01
(not OK) in state DFU_IDLE, the poll loop breaks instead of clearing
status: the whole two-chunk download completes, no CLRSTATUS request is
ever issued, and the request following the offending status report is the
DOWNLOAD of the next transaction. -/
theorem claim_C4_counterexample :
    dfu_download_whole oddDev 2 3 [1, 2] 1 () =
      ([Act.ctrlDownload 0 (some [1]), Act.ctrlGetStatus,
        Act.ctrlDownload 1 (some [2]), Act.ctrlGetStatus,
        Act.ctrlDownload 2 none, Act.ctrlGetStatus], Res.ok () ()) ∧
    oddDev.onGetStatus () = ((), some ⟨1, 0, DFU_STATE_DFU_IDLE⟩) ∧
    Act.ctrlClrStatus ∉ (dfu_download_whole oddDev 2 3 [1, 2] 1 ()).1 := by
  refine ⟨by decide, rfl, by decide⟩

/-- Claim C4 amended: in both poll loops, whenever a status query reports a
state that is not one of the break states of the loop and the status is not OK
or the state is ERROR, the very next device request is a CLRSTATUS and no
further request follows: the poll raises RuntimeError carrying the
reported (state, status) pair — which propagates unchanged through the
chunk loop — unless the clear-status transfer itself raises a USB error,
in which case that USB error propagates (and is then swallowed by the
chunk-loop handler).  In either case the request of the same transaction is
never resubmitted. -/
theorem claim_C4_amended :
    (∀ (σ : Type) (d : Device σ) (fuel : Nat) (s s1 : σ) (st : dfu_status),
      d.onGetStatus s = (s1, some st) →
      ¬(st.bState = DFU_STATE_DFU_DOWNLOAD_IDLE ∨ st.bState = DFU_STATE_DFU_IDLE) →
      (st.bStatus ≠ DFU_STATUS_OK ∨ st.bState = DFU_STATE_DFU_ERROR) →
      dfu_download_poll d (fuel + 1) s =
        ([Act.ctrlGetStatus, Act.ctrlClrStatus],
          match d.onClrStatus s1 with
          | (s2, none) => Res.exnUsb s2
          | (s2, some _) => Res.exnRt s2 st.bState st.bStatus)) ∧
    (∀ (σ : Type) (d : Device σ) (fuel : Nat) (s s1 : σ) (st : dfu_status),
      d.onGetStatus s = (s1, some st) →
      ¬(st.bState = DFU_STATE_DFU_UPLOAD_IDLE ∨ st.bState = DFU_STATE_DFU_IDLE) →
      (st.bStatus ≠ DFU_STATUS_OK ∨ st.bState = DFU_STATE_DFU_ERROR) →
      dfu_upload_poll d (fuel + 1) s =
        ([Act.ctrlGetStatus, Act.ctrlClrStatus],
          match d.onClrStatus s1 with
          | (s2, none) => Res.exnUsb s2
          | (s2, some _) => Res.exnRt s2 st.bState st.bStatus)) ∧
    (∀ (σ : Type) (d : Device σ) (pf lf : Nat) (data : List Nat) (C : Nat)
      (s s1 : σ) (tr : List Act) (x y : Nat),
      dnLoopGo d pf data C lf 0 0 s = (tr, Res.exnRt s1 x y) →
      dfu_download_whole d pf lf data C s = (tr, Res.exnRt s1 x y)) := by
  refine ⟨?_, ?_, ?_⟩
  · intro σ d fuel s s1 st h hbr herr
    have hgs : dfu_get_state d s = ([Act.ctrlGetStatus], Res.ok s1 st) :=
      dfu_get_state_some h
    show (dfu_get_state d >>= fun status =>
      if status.bState = DFU_STATE_DFU_DOWNLOAD_IDLE ∨ status.bState = DFU_STATE_DFU_IDLE then
        pureM ()
      else if status.bStatus ≠ DFU_STATUS_OK ∨ status.bState = DFU_STATE_DFU_ERROR then
        dfu_clear_status d >>= fun _ => raiseRt status.bState status.bStatus
      else dfu_download_poll d fuel) s = _
    rw [bind_ok hgs]
    simp only [if_neg hbr, if_pos herr]
    rcases hc : d.onClrStatus s1 with ⟨s2, _ | r⟩
    · rw [bind_exnUsb (dfu_clear_status_none hc)]
      rfl
    · rw [bind_ok (dfu_clear_status_some hc)]
      rfl
  · intro σ d fuel s s1 st h hbr herr
    have hgs : dfu_get_state d s = ([Act.ctrlGetStatus], Res.ok s1 st) :=
      dfu_get_state_some h
    show (dfu_get_state d >>= fun status =>
      if status.bState = DFU_STATE_DFU_UPLOAD_IDLE ∨ status.bState = DFU_STATE_DFU_IDLE then
        pureM ()
      else if status.bStatus ≠ DFU_STATUS_OK ∨ status.bState = DFU_STATE_DFU_ERROR then
        dfu_clear_status d >>= fun _ => raiseRt status.bState status.bStatus
      else dfu_upload_poll d fuel) s = _
    rw [bind_ok hgs]
    simp only [if_neg hbr, if_pos herr]
    rcases hc : d.onClrStatus s1 with ⟨s2, _ | r⟩
    · rw [bind_exnUsb (dfu_clear_status_none hc)]
      rfl
    · rw [bind_ok (dfu_clear_status_some hc)]
      rfl
  · intro σ d pf lf data C s s1 tr x y h
    unfold dfu_download_whole catchUsb
    rw [h]

theorem isDfuFunctional_iff (b : List Nat) :
    isDfuFunctional b = true ↔ b.length = 9 ∧ b.getD 1 0 = 0x21 := by
  simp [isDfuFunctional, DFU_DESCRIPTOR_LEN, DFU_DESC_FUNCTIONAL]

theorem get_dfu_descriptor_intfs_isSome (cfg : List (List Nat)) :
    (get_dfu_descriptor_intfs cfg).isSome = true ↔
      ∃ b ∈ cfg, isDfuFunctional b = true := by
  induction cfg with
  | nil => simp [get_dfu_descriptor_intfs]
  | cons b rest ih =>
    by_cases hb : isDfuFunctional b = true
    · simp [get_dfu_descriptor_intfs, hb]
    · simp only [get_dfu_descriptor_intfs, if_neg hb, ih, List.mem_cons]
      constructor
      · rintro ⟨c, hc, hc2⟩
        exact ⟨c, Or.inr hc, hc2⟩
      · rintro ⟨c, hc | hc, hc2⟩
        · exact absurd (hc ▸ hc2) hb
        · exact ⟨c, hc, hc2⟩

theorem get_dfu_descriptor_intfs_some (cfg : List (List Nat)) (desc : DfuDescriptor) :
    get_dfu_descriptor_intfs cfg = some desc →
      ∃ b ∈ cfg, isDfuFunctional b = true ∧ desc = dfu_desc_of b := by
  induction cfg with
  | nil => intro h; simp [get_dfu_descriptor_intfs] at h
  | cons b rest ih =>
    intro h
    by_cases hb : isDfuFunctional b = true
    · rw [get_dfu_descriptor_intfs, if_pos hb] at h
      exact ⟨b, List.mem_cons_self b rest, hb, (Option.some.inj h).symm⟩
    · rw [get_dfu_descriptor_intfs, if_neg hb] at h
      rcases ih h with ⟨c, hc, hc2, hc3⟩
      exact ⟨c, List.mem_cons_of_mem b hc, hc2, hc3⟩

theorem get_dfu_descriptor_isSome (dev : List (List (List Nat))) :
    (get_dfu_descriptor dev).isSome = true ↔
      ∃ cfg ∈ dev, ∃ b ∈ cfg, isDfuFunctional b = true := by
  induction dev with
  | nil => simp [get_dfu_descriptor]
  | cons cfg rest ih =>
    cases hc : get_dfu_descriptor_intfs cfg with
    | some desc =>
      simp only [get_dfu_descriptor, hc, Option.isSome_some, true_iff, List.mem_cons]
      rcases get_dfu_descriptor_intfs_some cfg desc hc with ⟨b, hb, hb2, _⟩
      exact ⟨cfg, Or.inl rfl, b, hb, hb2⟩
    | none =>
      have hno : ¬∃ b ∈ cfg, isDfuFunctional b = true := by
        rw [← get_dfu_descriptor_intfs_isSome, hc]
        simp
      simp only [get_dfu_descriptor, hc, ih, List.mem_cons]
      constructor
      · rintro ⟨c, h1, h2⟩
        exact ⟨c, Or.inr h1, h2⟩
      · rintro ⟨c, h1 | h1, h2⟩
        · exact absurd (h1 ▸ h2) hno
        · exact ⟨c, h1, h2⟩

theorem get_dfu_descriptor_some (dev : List (List (List Nat))) (desc : DfuDescriptor) :
    get_dfu_descriptor dev = some desc →
      ∃ cfg ∈ dev, ∃ b ∈ cfg, isDfuFunctional b = true ∧ desc = dfu_desc_of b := by
  induction dev with
  | nil => intro h; simp [get_dfu_descriptor] at h
  | cons cfg rest ih =>
    intro h
    cases hc : get_dfu_descriptor_intfs cfg with
    | some d0 =>
      rw [get_dfu_descriptor, hc] at h
      rcases get_dfu_descriptor_intfs_some cfg d0 hc with ⟨b, hb, hb2, hb3⟩
      exact ⟨cfg, List.mem_cons_self cfg rest, b, hb, hb2,
        (Option.some.inj h) ▸ hb3⟩
    | none =>
      rw [get_dfu_descriptor, hc] at h
      rcases ih h with ⟨c, h1, h2⟩
      exact ⟨c, List.mem_cons_of_mem cfg h1, h2⟩

theorem lor_shift_byte (x y : Nat) (h : y < 256) :
    (x <<< 8) ||| y = 256 * x + y := by
  rw [Nat.shiftLeft_eq]
  rw [show x * 2 ^ 8 = 2 ^ 8 * x from Nat.mul_comm x (2 ^ 8)]
  rw [← Nat.mul_add_lt_is_or (by simpa using h) x]

theorem getD_lt_256 (b : List Nat) (n : Nat) (hn : n < b.length)
    (hb : ∀ x ∈ b, x < 256) : b.getD n 0 < 256 := by
  rw [List.getD_eq_getElem b 0 hn]
  exact hb _ (List.getElem_mem hn)

/-- Claim C6: the functional-descriptor parser returns a descriptor exactly when
the extra descriptor bytes of some interface are exactly 9 bytes long with the
type tag 0x21 at offset 1; the returned descriptor is built from such a
byte sequence with attributes at offset 2 and the three 16-bit fields
decoded little-endian from offsets 3-4, 5-6 and 7-8; a device with no
matching interface yields absence, not an error. -/
theorem claim_C6 :
    ∀ dev : List (List (List Nat)),
      ((get_dfu_descriptor dev).isSome = true ↔
        ∃ cfg ∈ dev, ∃ b ∈ cfg, b.length = 9 ∧ b.getD 1 0 = 0x21) ∧
      (∀ desc, get_dfu_descriptor dev = some desc →
        ∃ cfg ∈ dev, ∃ b ∈ cfg, (b.length = 9 ∧ b.getD 1 0 = 0x21) ∧
          desc = dfu_desc_of b ∧
          ((∀ x ∈ b, x < 256) →
            desc.bmAttributes = b.getD 2 0 ∧
            desc.wDetachTimeOut = 256 * b.getD 4 0 + b.getD 3 0 ∧
            desc.wTransferSize = 256 * b.getD 6 0 + b.getD 5 0 ∧
            desc.bcdDFUVersion = 256 * b.getD 8 0 + b.getD 7 0)) := by
  intro dev
  constructor
  · rw [get_dfu_descriptor_isSome]
    constructor
    · rintro ⟨cfg, h1, b, h2, h3⟩
      exact ⟨cfg, h1, b, h2, (isDfuFunctional_iff b).mp h3⟩
    · rintro ⟨cfg, h1, b, h2, h3⟩
      exact ⟨cfg, h1, b, h2, (isDfuFunctional_iff b).mpr h3⟩
  · intro desc h
    rcases get_dfu_descriptor_some dev desc h with ⟨cfg, h1, b, h2, h3, h4⟩
    have h9 : b.length = 9 ∧ b.getD 1 0 = 0x21 := (isDfuFunctional_iff b).mp h3
    refine ⟨cfg, h1, b, h2, h9, h4, ?_⟩
    intro hb
    subst h4
    refine ⟨rfl, ?_, ?_, ?_⟩
    · exact lor_shift_byte _ _ (getD_lt_256 b 3 (by omega) hb)
    · exact lor_shift_byte _ _ (getD_lt_256 b 5 (by omega) hb)
    · exact lor_shift_byte _ _ (getD_lt_256 b 7 (by omega) hb)

theorem claim_C6_witness :
    ∃ cfg ∈ [[[9, 33, 5, 1, 0, 0, 16, 1, 1]]], ∃ b ∈ cfg,
      (b.length = 9 ∧ b.getD 1 0 = 33) ∧
      dfu_desc_of [9, 33, 5, 1, 0, 0, 16, 1, 1] = dfu_desc_of b ∧
      ((∀ x ∈ b, x < 256) →
        (dfu_desc_of [9, 33, 5, 1, 0, 0, 16, 1, 1]).bmAttributes = b.getD 2 0 ∧
        (dfu_desc_of [9, 33, 5, 1, 0, 0, 16, 1, 1]).wDetachTimeOut =
          256 * b.getD 4 0 + b.getD 3 0 ∧
        (dfu_desc_of [9, 33, 5, 1, 0, 0, 16, 1, 1]).wTransferSize =
          256 * b.getD 6 0 + b.getD 5 0 ∧
        (dfu_desc_of [9, 33, 5, 1, 0, 0, 16, 1, 1]).bcdDFUVersion =
          256 * b.getD 8 0 + b.getD 7 0) :=
  (claim_C6 [[[9, 33, 5, 1, 0, 0, 16, 1, 1]]]).2
    (dfu_desc_of [9, 33, 5, 1, 0, 0, 16, 1, 1]) rfl

/-- Claim C7: with two attached DFU-capable devices sharing a vendor ID but with
different product IDs, discovery filtered by that vendor ID alone matches
both devices and device selection refuses to choose (`dev` stays absent —
a hard failure); adding one of the product IDs to the filter yields
exactly that one device. -/
theorem claim_C7 :
    ∀ (d1 d2 : UsbDev) (v p1 p2 : Nat),
      hasDfuInterface d1 = true → hasDfuInterface d2 = true →
      d1.idVendor = v → d2.idVendor = v →
      d1.idProduct = p1 → d2.idProduct = p2 → p1 ≠ p2 →
      1 < (get_dfu_devices [d1, d2] (some v) none).length ∧
      get_dfu_device_select [d1, d2] (some v) none = none ∧
      get_dfu_devices [d1, d2] (some v) (some p1) = [d1] ∧
      get_dfu_device_select [d1, d2] (some v) (some p1) = some d1 := by
  intro d1 d2 v p1 p2 h1 h2 hv1 hv2 hp1 hp2 hne
  have f1 : FilterDFU (some v) none d1 = true := by
    unfold FilterDFU
    rw [if_pos (Or.inr (by rw [hv1])), if_pos (Or.inl rfl)]
    exact h1
  have f2 : FilterDFU (some v) none d2 = true := by
    unfold FilterDFU
    rw [if_pos (Or.inr (by rw [hv2])), if_pos (Or.inl rfl)]
    exact h2
  have g1 : FilterDFU (some v) (some p1) d1 = true := by
    unfold FilterDFU
    rw [if_pos (Or.inr (by rw [hv1])), if_pos (Or.inr (by rw [hp1]))]
    exact h1
  have g2 : FilterDFU (some v) (some p1) d2 = false := by
    unfold FilterDFU
    rw [if_pos (Or.inr (by rw [hv2]))]
    rw [if_neg ?hpid]
    case hpid =>
      rintro (hx | hx)
      · exact Option.noConfusion hx
      · exact hne (hp2 ▸ Option.some.inj hx)
  have l1 : get_dfu_devices [d1, d2] (some v) none = [d1, d2] := by
    simp [get_dfu_devices, List.filter_cons, f1, f2]
  have l2 : get_dfu_devices [d1, d2] (some v) (some p1) = [d1] := by
    simp [get_dfu_devices, List.filter_cons, g1, g2]
  refine ⟨by rw [l1]; simp, ?_, l2, ?_⟩
  · unfold get_dfu_device_select
    rw [l1]
    simp
  · unfold get_dfu_device_select
    rw [l2]
    simp

theorem claim_C7_witness :
    1 < (get_dfu_devices
        [⟨0x483, 0xdf11, [[⟨0xFE, 1, 2⟩]]⟩, ⟨0x483, 0x5740, [[⟨0xFE, 1, 2⟩]]⟩]
        (some 0x483) none).length ∧
    get_dfu_device_select
        [⟨0x483, 0xdf11, [[⟨0xFE, 1, 2⟩]]⟩, ⟨0x483, 0x5740, [[⟨0xFE, 1, 2⟩]]⟩]
        (some 0x483) none = none ∧
    get_dfu_devices
        [⟨0x483, 0xdf11, [[⟨0xFE, 1, 2⟩]]⟩, ⟨0x483, 0x5740, [[⟨0xFE, 1, 2⟩]]⟩]
        (some 0x483) (some 0xdf11) = [⟨0x483, 0xdf11, [[⟨0xFE, 1, 2⟩]]⟩] ∧
    get_dfu_device_select
        [⟨0x483, 0xdf11, [[⟨0xFE, 1, 2⟩]]⟩, ⟨0x483, 0x5740, [[⟨0xFE, 1, 2⟩]]⟩]
        (some 0x483) (some 0xdf11) = some ⟨0x483, 0xdf11, [[⟨0xFE, 1, 2⟩]]⟩ :=
  claim_C7 ⟨0x483, 0xdf11, [[⟨0xFE, 1, 2⟩]]⟩ ⟨0x483, 0x5740, [[⟨0xFE, 1, 2⟩]]⟩
    0x483 0xdf11 0x5740 (by decide) (by decide) rfl rfl rfl rfl (by decide)

theorem claim_C4_amended_witness :
    dfu_download_poll errStDev 1 () =
      ([Act.ctrlGetStatus, Act.ctrlClrStatus], Res.exnRt () 4 1) ∧
    dfu_upload_poll errStDev 1 () =
      ([Act.ctrlGetStatus, Act.ctrlClrStatus], Res.exnRt () 4 1) ∧
    dfu_download_whole errStDev 1 2 [5] 1 () =
      ([Act.ctrlDownload 0 (some [5]), Act.ctrlGetStatus, Act.ctrlClrStatus],
        Res.exnRt () 4 1) :=
  ⟨claim_C4_amended.1 Unit errStDev 0 () () ⟨1, 0, 4⟩ rfl (by decide) (by decide),
    claim_C4_amended.2.1 Unit errStDev 0 () () ⟨1, 0, 4⟩ rfl (by decide) (by decide),
    claim_C4_amended.2.2 Unit errStDev 1 2 [5] 1 () ()
      [Act.ctrlDownload 0 (some [5]), Act.ctrlGetStatus, Act.ctrlClrStatus] 4 1
      (by decide)⟩


theorem dfu_upload_upDev (f : Nat → List Nat) (t C : Nat) :
    dfu_upload (upDev f) 1 t C () =
      ([Act.ctrlUpload t C, Act.ctrlGetStatus], Res.ok () (f t)) := rfl

theorem upGo_succ {σ : Type} (d : Device σ) (pf C fuel t : Nat) (acc : List Nat) (s : σ) :
    upGo d pf C (fuel + 1) t acc s =
      match dfu_upload d pf t C s with
      | (tr, .ok s rdata) =>
        if rdata.length < C then (tr, .ok s (acc ++ rdata))
        else
          let r := upGo d pf C fuel (t + 1) (acc ++ rdata) s
          (tr ++ r.1, r.2)
      | (tr, .exnUsb s) => (tr, .ok s acc)
      | (tr, .ret s c) => (tr, .ret s c)
      | (tr, .exnVal s) => (tr, .exnVal s)
      | (tr, .exnRt s a b) => (tr, .exnRt s a b)
      | (tr, .crash s) => (tr, .crash s)
      | (tr, .hang s) => (tr, .hang s) := rfl

theorem upGo_upDev (f : Nat → List Nat) (C : Nat) :
    ∀ k t acc,
      (f (t + k)).length < C →
      (∀ i, i < k → C ≤ (f (t + i)).length) →
      ∃ tr, upGo (upDev f) 1 C (k + 1) t acc () =
          (tr, Res.ok () (acc ++ ((List.range (k + 1)).map (fun i => f (t + i))).flatten)) ∧
        uploadsOf tr = (List.range (k + 1)).map (fun i => (t + i, C)) := by
  intro k
  induction k with
  | zero =>
    intro t acc hshort _
    rw [Nat.add_zero] at hshort
    refine ⟨[Act.ctrlUpload t C, Act.ctrlGetStatus], ?_, by rfl⟩
    rw [upGo_succ, dfu_upload_upDev f t C]
    simp only [if_pos hshort]
    simp [List.range_succ]
  | succ k ih =>
    intro t acc hshort hfull
    have hfull0 : C ≤ (f t).length := by
      have h := hfull 0 (Nat.succ_pos k)
      rwa [Nat.add_zero] at h
    obtain ⟨tr, htr, hup⟩ := ih (t + 1) (acc ++ f t)
      (by rw [show t + 1 + k = t + (k + 1) from by omega]; exact hshort)
      (fun i hi => by
        have h := hfull (i + 1) (by omega)
        rwa [show t + (i + 1) = t + 1 + i from by omega] at h)
    refine ⟨[Act.ctrlUpload t C, Act.ctrlGetStatus] ++ tr, ?_, ?_⟩
    · rw [upGo_succ, dfu_upload_upDev f t C]
      simp only [if_neg (not_lt.mpr hfull0)]
      rw [htr]
      simp only [Prod.mk.injEq, List.cons_append, List.nil_append, true_and]
      congr 1
      rw [List.append_assoc]
      congr 1
      conv_rhs => rw [List.range_succ_eq_map]
      rw [List.map_cons, List.map_map, List.flatten_cons, Nat.add_zero]
      congr 1
      congr 1
      apply List.map_congr_left
      intro i hi
      simp only [Function.comp_apply]
      congr 1
      omega
    · have h0 : uploadsOf ([Act.ctrlUpload t C, Act.ctrlGetStatus] ++ tr) =
          (t, C) :: uploadsOf tr := by
        rw [uploadsOf, List.filterMap_append]
        rfl
      rw [h0, hup]
      conv_rhs => rw [List.range_succ_eq_map]
      rw [List.map_cons, List.map_map, Nat.add_zero]
      congr 1
      apply List.map_congr_left
      intro i hi
      simp only [Function.comp_apply, Prod.mk.injEq]
      exact ⟨by omega, trivial⟩


/-- Claim C2: for every device response sequence with a first short response at
transaction k (every earlier response fills the requested transfer size),
the upload chunk loop issues UPLOAD requests at transactions 0, 1, …, k
exactly — stopping right after the first short response — and returns the
concatenation of all received responses in transaction order. -/
theorem claim_C2 :
    ∀ (f : Nat → List Nat) (xfersize k : Nat),
      (f k).length < xfersize →
      (∀ i, i < k → xfersize ≤ (f i).length) →
      UploadClaim f xfersize k := by
  intro f C k h1 h2
  obtain ⟨tr, htr, hup⟩ := upGo_upDev f C k 0 []
    (by rw [Nat.zero_add]; exact h1)
    (fun i hi => by rw [Nat.zero_add]; exact h2 i hi)
  have hf : (fun i => f (0 + i)) = f := funext (fun i => by rw [Nat.zero_add])
  have hg : (fun i => (((0 : Nat) + i, C) : Nat × Nat)) = (fun i => (i, C)) :=
    funext (fun i => by rw [Nat.zero_add])
  rw [hf] at htr
  rw [hg] at hup
  refine ⟨tr, ?_, hup⟩
  unfold dfu_upload_whole
  rw [htr, List.nil_append]

theorem claim_C2_witness :
    ((fun t => if t < 2 then [t, t] else [9]) 2).length < 2 ∧
    (∀ i, i < 2 → 2 ≤ ((fun t => if t < 2 then [t, t] else [9]) i).length) ∧
    UploadClaim (fun t => if t < 2 then [t, t] else [9]) 2 2 :=
  ⟨by decide, by decide,
    claim_C2 (fun t => if t < 2 then [t, t] else [9]) 2 2 (by decide) (by decide)⟩


theorem dfu_download_goodDev (t : Nat) (p : Option (List Nat)) :
    dfu_download goodDev 1 t p () =
      ([Act.ctrlDownload t p, Act.ctrlGetStatus], Res.ok () ()) := rfl

theorem dnLoopGo_succ {σ : Type} (d : Device σ) (pf : Nat) (data : List Nat)
    (xfersize fuel transaction bytes_downloaded : Nat) :
    dnLoopGo d pf data xfersize (fuel + 1) transaction bytes_downloaded =
      if bytes_downloaded < data.length then
        dfu_download d pf transaction
          (some ((data.drop bytes_downloaded).take
            (min xfersize (data.length - bytes_downloaded)))) >>= fun _ =>
        dnLoopGo d pf data xfersize fuel (transaction + 1)
          (bytes_downloaded + min xfersize (data.length - bytes_downloaded))
      else
        dfu_download d pf transaction none := rfl

theorem catchUsb_ok {σ α : Type} {m : M σ α} {dflt : α} {s s1 : σ}
    {tr : List Act} {a : α} (h : m s = (tr, Res.ok s1 a)) :
    catchUsb m dflt s = (tr, Res.ok s1 a) := by
  unfold catchUsb
  rw [h]

theorem dnLoopGo_goodDev (data : List Nat) (C : Nat) (hC : 0 < C) :
    ∀ fuel bd t, data.length - bd < fuel →
      ∃ tr, dnLoopGo goodDev 1 data C fuel t bd () = (tr, Res.ok () ()) ∧
        downloadsOf tr =
          (List.range ((data.length - bd + C - 1) / C)).map
            (fun i => (t + i, some ((data.drop (bd + i * C)).take C)))
          ++ [(t + (data.length - bd + C - 1) / C, none)] := by
  intro fuel
  induction fuel with
  | zero => intro bd t h; omega
  | succ fuel ih =>
    intro bd t hfuel
    by_cases hbd : bd < data.length
    · have hchunk : (data.drop bd).take (min C (data.length - bd)) =
          (data.drop bd).take C := by
        rw [List.take_eq_take]
        simp only [List.length_drop]
        omega
      obtain ⟨tr1, htr1, hdl1⟩ := ih (bd + min C (data.length - bd)) (t + 1) (by omega)
      refine ⟨[Act.ctrlDownload t (some ((data.drop bd).take (min C (data.length - bd)))),
        Act.ctrlGetStatus] ++ tr1, ?_, ?_⟩
      · rw [dnLoopGo_succ, if_pos hbd]
        rw [bind_ok (dfu_download_goodDev t _)]
        rw [htr1]
      · rw [downloadsOf, List.filterMap_append, ← downloadsOf, ← downloadsOf, hdl1]
        have h0 : downloadsOf [Act.ctrlDownload t
            (some ((data.drop bd).take (min C (data.length - bd)))), Act.ctrlGetStatus] =
            [(t, some ((data.drop bd).take (min C (data.length - bd))))] := rfl
        rw [h0, hchunk]
        by_cases hC2 : C ≤ data.length - bd
        · have hcs : min C (data.length - bd) = C := by omega
          rw [hcs]
          have hK1 : data.length - (bd + C) + C - 1 = data.length - bd - 1 := by omega
          have hK2 : data.length - bd + C - 1 = data.length - bd - 1 + C := by omega
          rw [hK1, hK2, Nat.add_div_right _ hC]
          conv_rhs => rw [List.range_succ_eq_map]
          rw [List.map_cons, List.map_map, Nat.add_zero, Nat.zero_mul, Nat.add_zero]
          simp only [List.cons_append, List.nil_append, List.cons.injEq]
          refine ⟨rfl, ?_⟩
          congr 1
          · apply List.map_congr_left
            intro i hi
            simp only [Function.comp_apply, Prod.mk.injEq]
            refine ⟨by omega, ?_⟩
            have hidx : bd + C + i * C = bd + Nat.succ i * C := by
              rw [Nat.succ_mul]
              omega
            rw [hidx]
          · have hlast : t + 1 + (data.length - bd - 1) / C =
                t + ((data.length - bd - 1) / C + 1) := by omega
            rw [hlast]
        · have hbd2 : data.length - (bd + min C (data.length - bd)) = 0 := by omega
          rw [hbd2]
          have hK0 : (0 + C - 1) / C = 0 := Nat.div_eq_of_lt (by omega)
          have hK1 : (data.length - bd + C - 1) / C = 1 := by
            have he : data.length - bd + C - 1 = data.length - bd - 1 + C := by omega
            rw [he, Nat.add_div_right _ hC]
            have hz : (data.length - bd - 1) / C = 0 := Nat.div_eq_of_lt (by omega)
            omega
          rw [hK0, hK1]
          simp [List.range_succ]
    · have h0 : data.length - bd = 0 := by omega
      refine ⟨[Act.ctrlDownload t none, Act.ctrlGetStatus], ?_, ?_⟩
      · rw [dnLoopGo_succ, if_neg hbd]
        exact dfu_download_goodDev t none
      · rw [h0]
        have hK0 : (0 + C - 1) / C = 0 := by
          apply Nat.div_eq_of_lt
          omega
        rw [hK0]
        simp [downloadsOf]


theorem flatten_slices (C : Nat) :
    ∀ (n : Nat) (data : List Nat), data.length ≤ n * C →
      ((List.range n).map (slice data C)).flatten = data := by
  intro n
  induction n with
  | zero =>
    intro data h
    have hlen : data.length = 0 := by omega
    rw [List.length_eq_zero] at hlen
    simp [hlen]
  | succ n ih =>
    intro data h
    rw [List.range_succ_eq_map, List.map_cons, List.map_map, List.flatten_cons]
    have hhead : slice data C 0 = data.take C := by
      simp [slice]
    have htail : (slice data C) ∘ Nat.succ = slice (data.drop C) C := by
      funext i
      simp only [Function.comp_apply, slice]
      rw [List.drop_drop]
      congr 1
      rw [Nat.succ_mul]
      congr 1
      omega
    rw [Nat.succ_mul] at h
    rw [hhead, htail, ih (data.drop C) (by rw [List.length_drop]; omega)]
    exact List.take_append_drop C data

theorem slice_length (data : List Nat) (C i : Nat) :
    (slice data C i).length = min C (data.length - i * C) := by
  simp [slice]

theorem length_le_ceil_mul (len C : Nat) (hC : 0 < C) :
    len ≤ (len + C - 1) / C * C := by
  have hdm := Nat.div_add_mod (len + C - 1) C
  have hr : (len + C - 1) % C < C := Nat.mod_lt _ hC
  have hmul : (len + C - 1) / C * C = C * ((len + C - 1) / C) := Nat.mul_comm _ _
  omega

/-- Claim C1: against a cooperating device, `_dfu_download` on an image of N
bytes with chunk size C > 0 completes and sends exactly ceil(N/C) DOWNLOAD
data requests whose payloads are the consecutive C-byte slices of the
image, at transactions 0, 1, …, ceil(N/C)-1, followed by exactly one
zero-length DOWNLOAD request at transaction ceil(N/C); the slices
concatenate back to the image and each has size C except the last, which
is positive and at most C.  In particular a 10000-byte image with chunk
size 4096 yields payload sizes 4096, 4096, 1808 at transactions 0, 1, 2
and the zero-length request at transaction 3. -/
theorem claim_C1 :
    (∀ (data : List Nat) (C : Nat), 0 < C → DownloadClaim data C) ∧ ScenarioC1 := by
  have hgen : ∀ (data : List Nat) (C : Nat), 0 < C → DownloadClaim data C := by
    intro data C hC
    obtain ⟨tr, htr, hdl⟩ := dnLoopGo_goodDev data C hC (data.length + 1) 0 0 (by omega)
    rw [Nat.sub_zero] at hdl
    have hidx : (fun i => ((0 + i : Nat), some ((data.drop (0 + i * C)).take C))) =
        (fun i => (i, some (slice data C i))) := by
      funext i
      simp [slice]
    rw [hidx] at hdl
    rw [Nat.zero_add] at hdl
    refine ⟨tr, ?_, hdl, ?_, ?_, ?_⟩
    · unfold dfu_download_whole
      exact catchUsb_ok htr
    · exact flatten_slices C _ data (length_le_ceil_mul data.length C hC)
    · intro i hi
      rw [slice_length]
      have h2 : (i + 2) * C ≤ data.length + C - 1 :=
        (Nat.le_div_iff_mul_le hC).mp (by omega)
      rw [Nat.add_mul] at h2
      omega
    · intro i hi
      rw [slice_length]
      have h2 : (i + 1) * C ≤ data.length + C - 1 :=
        (Nat.le_div_iff_mul_le hC).mp (by omega)
      rw [Nat.add_mul] at h2
      constructor
      · omega
      · omega
  refine ⟨hgen, ?_⟩
  obtain ⟨tr, htr, hdl, _, _, _⟩ := hgen (List.replicate 10000 0) 4096 (by norm_num)
  unfold ScenarioC1
  have hlen : (List.replicate (10000 : Nat) 0).length = 10000 := List.length_replicate _ _
  rw [hlen] at htr hdl
  rw [htr]
  rw [hdl]
  have hK : ((10000 : Nat) + 4096 - 1) / 4096 = 3 := by norm_num
  rw [hK]
  have hs : ∀ i, i < 3 → (slice (List.replicate 10000 0) 4096 i).length =
      min 4096 (10000 - i * 4096) := by
    intro i _
    rw [slice_length, hlen]
  simp only [List.range_succ, List.range_zero, List.nil_append, List.map_append,
    List.map_cons, List.map_nil, List.cons_append, Option.map_some]
  norm_num [slice_length]

theorem claim_C1_witness :
    0 < 2 ∧ DownloadClaim [10, 20, 30, 40, 50] 2 :=
  ⟨by decide, claim_C1.1 [10, 20, 30, 40, 50] 2 (by decide)⟩


theorem set_alt_some {σ : Type} {d : Device σ} {s s1 : σ} {u : Unit}
    (h : d.onSetAlt s = (s1, some u)) :
    set_interface_altsetting d s = ([Act.setAlt], Res.ok s1 ()) := by
  unfold set_interface_altsetting
  rw [h]

theorem set_alt_none {σ : Type} {d : Device σ} {s s1 : σ}
    (h : d.onSetAlt s = (s1, none)) :
    set_interface_altsetting d s = ([Act.setAlt], Res.exnUsb s1) := by
  unfold set_interface_altsetting
  rw [h]

theorem raiseVal_app {σ α : Type} (s : σ) :
    (raiseVal : M σ α) s = ([], Res.exnVal s) := rfl

theorem detch_run {σ : Type} (d : Device σ) (s : σ) :
    detch d s = ([Act.ctrlDetach], Res.ok (d.onDetach s).1 0) := by
  unfold detch finallyRet0 detchBody
  rcases h : d.onDetach s with ⟨s1, _ | r⟩
  · have hd : dfu_detch d s = ([Act.ctrlDetach], Res.exnUsb s1) := by
      unfold dfu_detch
      rw [h]
    rw [bind_exnUsb hd]
  · have hd : dfu_detch d s = ([Act.ctrlDetach], Res.ok s1 r) := by
      unfold dfu_detch
      rw [h]
    rw [bind_ok hd]
    rcases lt_or_ge r 0 with hr | hr
    · rw [if_pos hr]
      rfl
    · rw [if_neg (not_lt.mpr hr)]
      rfl

theorem M_bind_assoc {σ α β γ : Type} (m : M σ α) (f : α → M σ β) (g : β → M σ γ) :
    (m >>= f) >>= g = m >>= fun a => f a >>= g := by
  funext s
  show bindM (bindM m f) g s = bindM m (fun a => bindM (f a) g) s
  rcases hm : m s with ⟨tr, r⟩
  cases r with
  | ok s1 a =>
    rcases hf : f a s1 with ⟨tr2, r2⟩
    cases r2 <;> simp [bindM, hm, hf, List.append_assoc]
  | ret s1 c => simp [bindM, hm]
  | exnUsb s1 => simp [bindM, hm]
  | exnVal s1 => simp [bindM, hm]
  | exnRt s1 x y => simp [bindM, hm]
  | crash s1 => simp [bindM, hm]
  | hang s1 => simp [bindM, hm]

theorem endsRel_append (a b : List Act) (h : endsRel b) : endsRel (a ++ b) := by
  obtain ⟨t0, rfl⟩ := h
  exact ⟨a ++ t0, by rw [List.append_assoc]⟩

theorem claimedAt_endsRel (tr : List Act) (h : endsRel tr) : claimedAt tr = false := by
  obtain ⟨t0, rfl⟩ := h
  unfold claimedAt
  rw [List.foldl_append]
  rfl

theorem runRet_not_ret {σ : Type} (m : M σ Unit) (s : σ) (tr : List Act)
    (s1 : σ) (c : Nat) : runRet m s ≠ (tr, Res.ret s1 c) := by
  intro h
  unfold runRet at h
  rcases hm : m s with ⟨t, r⟩
  rw [hm] at h
  cases r <;> simp at h

theorem pureM_not_ret {σ α : Type} (a : α) (s : σ) (tr : List Act)
    (s1 : σ) (c : Nat) : (pureM a : M σ α) s ≠ (tr, Res.ret s1 c) := by
  intro h
  injection h with h1 h2
  exact Res.noConfusion h2

theorem ite_unit_ret {σ : Type} (cond : Prop) [Decidable cond] (m : M σ Unit)
    (hm : ∀ (s : σ) (tr : List Act) (s1 : σ) (c : Nat),
      m s = (tr, Res.ret s1 c) → endsRel tr) :
    ∀ (s : σ) (tr : List Act) (s1 : σ) (c : Nat),
      (if cond then m else pureM ()) s = (tr, Res.ret s1 c) → endsRel tr := by
  intro s tr s1 c h
  by_cases hc : cond
  · rw [if_pos hc] at h
    exact hm s tr s1 c h
  · rw [if_neg hc] at h
    exact absurd h (pureM_not_ret () s tr s1 c)

theorem main_detach_section_ret {σ : Type} (d : Device σ) :
    ∀ (s : σ) (tr : List Act) (s1 : σ) (c : Nat),
      main_detach_section d s = (tr, Res.ret s1 c) → endsRel tr := by
  intro s tr s1 c h
  unfold main_detach_section at h
  simp only [bind_ok (emitM_app Act.claimIntf s)] at h
  rcases halt : d.onSetAlt s with ⟨s2, _ | u⟩
  · simp only [bind_exnUsb (set_alt_none halt)] at h
    injection h with h1 h2
    exact Res.noConfusion h2
  · simp only [bind_ok (set_alt_some halt)] at h
    simp only [bind_ok (detch_run d s2)] at h
    simp only [bind_ok (emitM_app Act.releaseIntf (d.onDetach s2).1)] at h
    simp only [earlyReturn_app] at h
    injection h with h1 h2
    subst h1
    exact ⟨[Act.claimIntf, Act.setAlt, Act.ctrlDetach], by simp⟩

theorem main_runtime_app_ret {σ : Type} (d : Device σ) (cfg : MainCfg) :
    ∀ (s : σ) (tr : List Act) (s1 : σ) (c : Nat),
      main_runtime_app d cfg s = (tr, Res.ret s1 c) → endsRel tr := by
  intro s tr s1 c h
  unfold main_runtime_app at h
  simp only [bind_ok (detch_run d s)] at h
  rw [if_neg (by simp : ¬((0 : Nat) ≠ 0))] at h
  simp only [bind_ok (pureM_app () (d.onDetach s).1)] at h
  simp only [bind_ok (emitM_app Act.releaseIntf (d.onDetach s).1)] at h
  by_cases hv : cfg.redisc_raises = true
  · rw [if_pos hv] at h
    simp only [bind_exnVal (raiseVal_app (d.onDetach s).1)] at h
    injection h with h1 h2
    exact Res.noConfusion h2
  · rw [if_neg hv] at h
    simp only [bind_ok (pureM_app () (d.onDetach s).1)] at h
    by_cases hf : cfg.redisc_found = false
    · rw [if_pos hf] at h
      simp only [bind_ret (earlyReturn_app 1 (d.onDetach s).1)] at h
      injection h with h1 h2
      subst h1
      exact ⟨[Act.ctrlDetach], by simp⟩
    · rw [if_neg hf] at h
      simp only [bind_ok (pureM_app () (d.onDetach s).1)] at h
      by_cases hm2 : cfg.redisc_mode ≠ DFU_PROTOCOL_DFU
      · rw [if_pos hm2] at h
        simp only [earlyReturn_app] at h
        injection h with h1 h2
        subst h1
        exact ⟨[Act.ctrlDetach], by simp⟩
      · rw [if_neg hm2] at h
        simp only [pureM_app] at h
        injection h with h1 h2
        exact Res.noConfusion h2


theorem main_runtime_section_ret {σ : Type} (d : Device σ) (cfg : MainCfg) :
    ∀ (s : σ) (tr : List Act) (s1 : σ) (c : Nat),
      main_runtime_section d cfg s = (tr, Res.ret s1 c) → endsRel tr := by
  intro s tr s1 c h
  unfold main_runtime_section at h
  simp only [bind_ok (emitM_app Act.claimIntf s)] at h
  rcases halt : d.onSetAlt s with ⟨s2, _ | u⟩
  · simp only [bind_exnUsb (set_alt_none halt)] at h
    injection h with h1 h2
    exact Res.noConfusion h2
  · simp only [bind_ok (set_alt_some halt)] at h
    rcases hgs : d.onGetStatus s2 with ⟨s3, _ | st⟩
    · simp only [bind_exnUsb (dfu_get_state_none hgs)] at h
      injection h with h1 h2
      exact Res.noConfusion h2
    · simp only [bind_ok (dfu_get_state_some hgs)] at h
      by_cases hbad : st.bStatus ≠ DFU_STATUS_OK ∨ st.bState = DFU_STATE_DFU_ERROR
      · rw [if_pos hbad] at h
        simp only [M_bind_assoc] at h
        rcases hclr : d.onClrStatus s3 with ⟨s4, _ | rr⟩
        · simp only [bind_exnUsb (dfu_clear_status_none hclr)] at h
          injection h with h1 h2
          exact Res.noConfusion h2
        · simp only [bind_ok (dfu_clear_status_some hclr)] at h
          by_cases hrr : rr < 0
          · rw [if_pos hrr] at h
            simp only [M_bind_assoc] at h
            simp only [bind_ok (emitM_app Act.releaseIntf s4)] at h
            simp only [bind_ret (earlyReturn_app 1 s4)] at h
            injection h with h1 h2
            subst h1
            exact ⟨[Act.claimIntf, Act.setAlt, Act.ctrlGetStatus, Act.ctrlClrStatus], by simp⟩
          · rw [if_neg hrr] at h
            simp only [bind_ok (pureM_app () s4)] at h
            by_cases happ : st.bState = DFU_STATE_APP_IDLE ∨ st.bState = DFU_STATE_APP_DETACH
            · rw [if_pos happ] at h
              rcases ha : main_runtime_app d cfg s4 with ⟨trA, rA⟩
              rw [ha] at h
              injection h with h1 h2
              subst h1
              cases rA with
              | ret sA cA =>
                apply endsRel_append
                apply endsRel_append
                apply endsRel_append
                apply endsRel_append
                apply endsRel_append
                exact main_runtime_app_ret d cfg s4 trA sA cA ha
              | ok sA uA => exact Res.noConfusion h2
              | exnUsb sA => exact Res.noConfusion h2
              | exnVal sA => exact Res.noConfusion h2
              | exnRt sA x y => exact Res.noConfusion h2
              | crash sA => exact Res.noConfusion h2
              | hang sA => exact Res.noConfusion h2
            · rw [if_neg happ] at h
              simp only [pureM_app] at h
              injection h with h1 h2
              exact Res.noConfusion h2
      · rw [if_neg hbad] at h
        simp only [bind_ok (pureM_app () s3)] at h
        by_cases happ : st.bState = DFU_STATE_APP_IDLE ∨ st.bState = DFU_STATE_APP_DETACH
        · rw [if_pos happ] at h
          rcases ha : main_runtime_app d cfg s3 with ⟨trA, rA⟩
          rw [ha] at h
          injection h with h1 h2
          subst h1
          cases rA with
          | ret sA cA =>
            apply endsRel_append
            apply endsRel_append
            apply endsRel_append
            apply endsRel_append
            exact main_runtime_app_ret d cfg s3 trA sA cA ha
          | ok sA uA => exact Res.noConfusion h2
          | exnUsb sA => exact Res.noConfusion h2
          | exnVal sA => exact Res.noConfusion h2
          | exnRt sA x y => exact Res.noConfusion h2
          | crash sA => exact Res.noConfusion h2
          | hang sA => exact Res.noConfusion h2
        · rw [if_neg happ] at h
          simp only [pureM_app] at h
          injection h with h1 h2
          exact Res.noConfusion h2


theorem main_op_dispatch_ret {σ : Type} (d : Device σ) (cfg : MainCfg) :
    ∀ (s : σ) (tr : List Act) (s1 : σ) (c : Nat),
      main_op_dispatch d cfg s = (tr, Res.ret s1 c) →
      cfg.command = CMD_DOWNLOAD_RANDOM_BIN ∧ cfg.accessOkRandom = false := by
  intro s tr s1 c h
  unfold main_op_dispatch at h
  by_cases h56 : cfg.command = CMD_DOWNLOAD ∨ cfg.command = CMD_DOWNLOAD_RANDOM_BIN
  · rw [if_pos h56] at h
    by_cases h6 : cfg.command = CMD_DOWNLOAD_RANDOM_BIN
    · rw [if_pos h6] at h
      simp only [M_bind_assoc] at h
      simp only [bind_ok (emitM_app Act.genRandomFile s)] at h
      by_cases hacc : cfg.accessOkRandom = false
      · exact ⟨h6, hacc⟩
      · rw [if_neg hacc] at h
        simp only [bind_ok (pureM_app () s)] at h
        rcases hdl : download d cfg.pollFuel cfg.loopFuel cfg.fileExists
            cfg.fileReadable cfg.dlData cfg.transferSize s with ⟨trD, rD⟩
        rw [hdl] at h
        injection h with h1 h2
        cases rD with
        | ret sD cD => exact absurd hdl (runRet_not_ret _ s trD sD cD)
        | ok sD cD => exact Res.noConfusion h2
        | exnUsb sD => exact Res.noConfusion h2
        | exnVal sD => exact Res.noConfusion h2
        | exnRt sD x y => exact Res.noConfusion h2
        | crash sD => exact Res.noConfusion h2
        | hang sD => exact Res.noConfusion h2
    · rw [if_neg h6] at h
      simp only [bind_ok (pureM_app () s)] at h
      rcases hdl : download d cfg.pollFuel cfg.loopFuel cfg.fileExists
          cfg.fileReadable cfg.dlData cfg.transferSize s with ⟨trD, rD⟩
      rw [hdl] at h
      injection h with h1 h2
      cases rD with
      | ret sD cD => exact absurd hdl (runRet_not_ret _ s trD sD cD)
      | ok sD cD => exact Res.noConfusion h2
      | exnUsb sD => exact Res.noConfusion h2
      | exnVal sD => exact Res.noConfusion h2
      | exnRt sD x y => exact Res.noConfusion h2
      | crash sD => exact Res.noConfusion h2
      | hang sD => exact Res.noConfusion h2
  · rw [if_neg h56] at h
    by_cases h4 : cfg.command = CMD_UPLOAD
    · rw [if_pos h4] at h
      rcases hup : upload d cfg.pollFuel cfg.loopFuel cfg.fileWritable
          cfg.transferSize s with ⟨trU, rU⟩
      rw [hup] at h
      injection h with h1 h2
      cases rU with
      | ret sU cU => exact absurd hup (runRet_not_ret _ s trU sU cU)
      | ok sU cU => exact Res.noConfusion h2
      | exnUsb sU => exact Res.noConfusion h2
      | exnVal sU => exact Res.noConfusion h2
      | exnRt sU x y => exact Res.noConfusion h2
      | crash sU => exact Res.noConfusion h2
      | hang sU => exact Res.noConfusion h2
    · rw [if_neg h4] at h
      exact absurd h (pureM_not_ret 0 s tr s1 c)

theorem main_final_section_run {σ : Type} (d : Device σ) (cfg : MainCfg)
    (e : Nat) (s : σ) :
    ∀ (tr : List Act) (r : Res σ Unit), main_final_section d cfg e s = (tr, r) →
      (∃ s1, r = Res.ok s1 ()) ∨ (∃ s1, r = Res.crash s1) := by
  intro tr r h
  unfold main_final_section at h
  by_cases hfd : cfg.final_detach = true ∧ e = 0
  · rw [if_pos hfd] at h
    simp only [bind_ok (detch_run d s)] at h
    injection h with h1 h2
    exact Or.inr ⟨(d.onDetach s).1, h2.symm⟩
  · rw [if_neg hfd] at h
    injection h with h1 h2
    exact Or.inl ⟨s, h2.symm⟩


theorem mainBody_exit {σ : Type} (d : Device σ) (cfg : MainCfg) :
    ∀ (s : σ) (tr : List Act) (r : Res σ Nat),
      mainBody d cfg s = (tr, r) →
      (∀ s1 c, r = Res.ok s1 c → endsRel tr) ∧
      (∀ s1 c, r = Res.ret s1 c →
        (cfg.command = CMD_DOWNLOAD_RANDOM_BIN ∧ cfg.accessOkRandom = false) ∨
          endsRel tr) := by
  intro s tr r h
  unfold mainBody at h
  rcases h1 : (if cfg.command = CMD_DETACH then main_detach_section d else pureM ()) s
    with ⟨tr1, r1⟩
  cases r1 with
  | ok s1 u1 =>
    simp only [bind_ok h1] at h
    rcases h2 : (if cfg.dfu_mode ≠ DFU_PROTOCOL_DFU then main_runtime_section d cfg
        else pureM ()) s1 with ⟨tr2, r2⟩
    cases r2 with
    | ok s2 u2 =>
      simp only [bind_ok h2] at h
      simp only [bind_ok (emitM_app Act.claimIntf s2)] at h
      rcases halt : d.onSetAlt s2 with ⟨s3, _ | u3⟩
      · simp only [bind_exnUsb (set_alt_none halt)] at h
        injection h with hT hR
        subst hR
        constructor <;> intro s9 c9 hc9 <;> exact Res.noConfusion hc9
      · simp only [bind_ok (set_alt_some halt)] at h
        rcases hop : main_op_dispatch d cfg s3 with ⟨trO, rO⟩
        cases rO with
        | ok sO e =>
          simp only [bind_ok hop] at h
          rcases hfin : main_final_section d cfg e sO with ⟨trF, rF⟩
          cases rF with
          | ok sF uF =>
            simp only [bind_ok hfin] at h
            simp only [bind_ok (emitM_app Act.releaseIntf sF)] at h
            simp only [pureM_app] at h
            injection h with hT hR
            subst hR
            subst hT
            constructor
            · intro s9 c9 hc9
              simp only [List.append_nil, ← List.append_assoc]
              exact ⟨_, rfl⟩
            · intro s9 c9 hc9
              exact Res.noConfusion hc9
          | crash sF =>
            simp only [bind_crash hfin] at h
            injection h with hT hR
            subst hR
            constructor <;> intro s9 c9 hc9 <;> exact Res.noConfusion hc9
          | ret sF cF =>
            rcases main_final_section_run d cfg e sO trF _ hfin with ⟨sx, hx⟩ | ⟨sx, hx⟩ <;>
              exact Res.noConfusion hx
          | exnUsb sF =>
            rcases main_final_section_run d cfg e sO trF _ hfin with ⟨sx, hx⟩ | ⟨sx, hx⟩ <;>
              exact Res.noConfusion hx
          | exnVal sF =>
            rcases main_final_section_run d cfg e sO trF _ hfin with ⟨sx, hx⟩ | ⟨sx, hx⟩ <;>
              exact Res.noConfusion hx
          | exnRt sF x y =>
            rcases main_final_section_run d cfg e sO trF _ hfin with ⟨sx, hx⟩ | ⟨sx, hx⟩ <;>
              exact Res.noConfusion hx
          | hang sF =>
            rcases main_final_section_run d cfg e sO trF _ hfin with ⟨sx, hx⟩ | ⟨sx, hx⟩ <;>
              exact Res.noConfusion hx
        | ret sO cO =>
          simp only [bind_ret hop] at h
          injection h with hT hR
          subst hR
          constructor
          · intro s9 c9 hc9
            exact Res.noConfusion hc9
          · intro s9 c9 hc9
            exact Or.inl (main_op_dispatch_ret d cfg s3 trO sO cO hop)
        | exnUsb sO =>
          simp only [bind_exnUsb hop] at h
          injection h with hT hR
          subst hR
          constructor <;> intro s9 c9 hc9 <;> exact Res.noConfusion hc9
        | exnVal sO =>
          simp only [bind_exnVal hop] at h
          injection h with hT hR
          subst hR
          constructor <;> intro s9 c9 hc9 <;> exact Res.noConfusion hc9
        | exnRt sO x y =>
          simp only [bind_exnRt hop] at h
          injection h with hT hR
          subst hR
          constructor <;> intro s9 c9 hc9 <;> exact Res.noConfusion hc9
        | crash sO =>
          simp only [bind_crash hop] at h
          injection h with hT hR
          subst hR
          constructor <;> intro s9 c9 hc9 <;> exact Res.noConfusion hc9
        | hang sO =>
          simp only [bind_hang hop] at h
          injection h with hT hR
          subst hR
          constructor <;> intro s9 c9 hc9 <;> exact Res.noConfusion hc9
    | ret s2 c2 =>
      simp only [bind_ret h2] at h
      injection h with hT hR
      subst hR
      subst hT
      constructor
      · intro s9 c9 hc9
        exact Res.noConfusion hc9
      · intro s9 c9 hc9
        refine Or.inr (endsRel_append _ _ ?_)
        exact ite_unit_ret _ (main_runtime_section d cfg)
          (main_runtime_section_ret d cfg) s1 tr2 s2 c2 h2
    | exnUsb s2 =>
      simp only [bind_exnUsb h2] at h
      injection h with hT hR
      subst hR
      constructor <;> intro s9 c9 hc9 <;> exact Res.noConfusion hc9
    | exnVal s2 =>
      simp only [bind_exnVal h2] at h
      injection h with hT hR
      subst hR
      constructor <;> intro s9 c9 hc9 <;> exact Res.noConfusion hc9
    | exnRt s2 x y =>
      simp only [bind_exnRt h2] at h
      injection h with hT hR
      subst hR
      constructor <;> intro s9 c9 hc9 <;> exact Res.noConfusion hc9
    | crash s2 =>
      simp only [bind_crash h2] at h
      injection h with hT hR
      subst hR
      constructor <;> intro s9 c9 hc9 <;> exact Res.noConfusion hc9
    | hang s2 =>
      simp only [bind_hang h2] at h
      injection h with hT hR
      subst hR
      constructor <;> intro s9 c9 hc9 <;> exact Res.noConfusion hc9
  | ret s1 c1 =>
    simp only [bind_ret h1] at h
    injection h with hT hR
    subst hR
    subst hT
    constructor
    · intro s9 c9 hc9
      exact Res.noConfusion hc9
    · intro s9 c9 hc9
      exact Or.inr (ite_unit_ret _ (main_detach_section d)
        (main_detach_section_ret d) s tr1 s1 c1 h1)
  | exnUsb s1 =>
    simp only [bind_exnUsb h1] at h
    injection h with hT hR
    subst hR
    constructor <;> intro s9 c9 hc9 <;> exact Res.noConfusion hc9
  | exnVal s1 =>
    simp only [bind_exnVal h1] at h
    injection h with hT hR
    subst hR
    constructor <;> intro s9 c9 hc9 <;> exact Res.noConfusion hc9
  | exnRt s1 x y =>
    simp only [bind_exnRt h1] at h
    injection h with hT hR
    subst hR
    constructor <;> intro s9 c9 hc9 <;> exact Res.noConfusion hc9
  | crash s1 =>
    simp only [bind_crash h1] at h
    injection h with hT hR
    subst hR
    constructor <;> intro s9 c9 hc9 <;> exact Res.noConfusion hc9
  | hang s1 =>
    simp only [bind_hang h1] at h
    injection h with hT hR
    subst hR
    constructor <;> intro s9 c9 hc9 <;> exact Res.noConfusion hc9


/-- Claim C5 is refuted: in a random-bin download run whose generated file fails
the writability re-check, `main` claims the interface, then returns exit
code 1 without ever releasing it — the trace is claim, set-altsetting,
generate-file, with no release, and the interface is still claimed at
exit. -/
theorem claim_C5_counterexample :
    mainRun goodDev cexCfg () =
      ([Act.claimIntf, Act.setAlt, Act.genRandomFile], Res.ok () 1) ∧
    claimedAt (mainRun goodDev cexCfg ()).1 = true := by
  constructor
  · decide
  · decide

/-- Claim C5 amended: on every exit path of `main` that returns an exit code —
normal returns, early returns, and the caught-exception path — the claimed
interface is released before returning, except on the one path where the
command is the random-bin download and the generated file fails the
writability re-check, which returns 1 with the interface still claimed.
(The final-detach path does not return at all: it dies with an uncaught
NameError on `bitWillDetach`.) -/
theorem claim_C5_amended :
    ∀ (σ : Type) (d : Device σ) (cfg : MainCfg) (s s1 : σ) (tr : List Act) (c : Nat),
      mainRun d cfg s = (tr, Res.ok s1 c) →
      ¬(cfg.command = CMD_DOWNLOAD_RANDOM_BIN ∧ cfg.accessOkRandom = false) →
      claimedAt tr = false := by
  intro σ d cfg s s1 tr c h hcarve
  have hm : mainRun d cfg s = (match runRetNat (mainBody d cfg) s with
      | (tr, Res.exnUsb s) => (tr ++ [Act.releaseIntf], Res.ok s 1)
      | (tr, Res.exnVal s) => (tr ++ [Act.releaseIntf], Res.ok s 1)
      | (tr, Res.exnRt s _ _) => (tr ++ [Act.releaseIntf], Res.ok s 1)
      | r => r) := rfl
  have hr : runRetNat (mainBody d cfg) s = (match mainBody d cfg s with
      | (tr, Res.ret s c) => (tr, Res.ok s c)
      | r => r) := rfl
  rw [hm, hr] at h
  rcases hb : mainBody d cfg s with ⟨trb, rb⟩
  obtain ⟨hok, hret⟩ := mainBody_exit d cfg s trb rb hb
  rw [hb] at h
  cases rb with
  | ok sb cb =>
    injection h with hT hR
    subst hT
    exact claimedAt_endsRel _ (hok sb cb rfl)
  | ret sb cb =>
    injection h with hT hR
    subst hT
    rcases hret sb cb rfl with hcv | he
    · exact absurd hcv hcarve
    · exact claimedAt_endsRel _ he
  | exnUsb sb =>
    injection h with hT hR
    subst hT
    exact claimedAt_endsRel _ ⟨trb, rfl⟩
  | exnVal sb =>
    injection h with hT hR
    subst hT
    exact claimedAt_endsRel _ ⟨trb, rfl⟩
  | exnRt sb x y =>
    injection h with hT hR
    subst hT
    exact claimedAt_endsRel _ ⟨trb, rfl⟩
  | crash sb =>
    injection h with hT hR
    exact Res.noConfusion hR
  | hang sb =>
    injection h with hT hR
    exact Res.noConfusion hR

theorem claim_C5_amended_witness :
    claimedAt [Act.claimIntf, Act.setAlt, Act.fileOpenRead, Act.ctrlGetStatus,
      Act.ctrlGetStatus, Act.ctrlGetStatus, Act.ctrlDownload 0 (some [1, 2]),
      Act.ctrlGetStatus, Act.ctrlDownload 1 none, Act.ctrlGetStatus,
      Act.releaseIntf] = false :=
  claim_C5_amended Unit goodDev okCfg () () _ 0 (by decide) (by decide)

end Dfu
